import Mathlib

/-!
# monitor-image: decode-to-pixmap pipeline and event loop

A shallow embedding of `src/monitor_image.cpp` (`redraw`, `load_image`, `main`).

Conventions of the embedding:

* Library and system calls (FreeImage, Xlib, inotify) are black boxes.  What they
  return is an explicit environment argument; every call the program makes is
  recorded, in program order, in a trace of `Act`s.
* A C++ `int` holding a non-negative quantity is a `Nat` that must stay at or below
  `INT_MAX`; a computation that leaves that range (signed overflow, undefined
  behaviour in C++) makes the embedded function return `none`.
* The heap block `image32` is a list of cells, `none` for a byte that was never
  stored to, `some v` for a stored byte `v`.  A store outside the block is undefined
  behaviour (`none` for the whole computation).  `malloc` is taken to succeed.
  The index `(y * width + x) * pad_bytes + c` of a store is computed in `Nat`: the
  size of the block is within the `int` range, so an index that would overflow an
  `int` lies outside the block and the store is undefined either way.
* A byte stored through the `char *` keeps the low eight bits of the stored value.
-/

namespace MonitorImage

/-! ## Constants of the C library and of Xlib -/

/-- `EXIT_SUCCESS` of `<cstdlib>`. -/
def EXIT_SUCCESS : Int := 0

/-- `EXIT_FAILURE` of `<cstdlib>`. -/
def EXIT_FAILURE : Int := 1

/-- Largest value of a 32-bit `int`. -/
def INT_MAX : Nat := 2147483647

/-- `FIF_UNKNOWN` of `FreeImage.h`. -/
def FIF_UNKNOWN : Int := -1

/-- `Expose` event type of `X.h`. -/
def Expose : Nat := 12

/-- `ClientMessage` event type of `X.h`. -/
def ClientMessage : Nat := 33

/-- `EAGAIN` of `<errno.h>` (Linux). -/
def EAGAIN : Nat := 11

/-- `EWOULDBLOCK` of `<errno.h>` (Linux). -/
def EWOULDBLOCK : Nat := 11

/-! ## Source images -/

/-- The byte offsets `FI_RGBA_BLUE`, `FI_RGBA_GREEN`, `FI_RGBA_RED`, `FI_RGBA_ALPHA`
of `FreeImage.h` (platform dependent macros, taken as a parameter). -/
structure ChannelOffsets where
  FI_RGBA_BLUE : Nat
  FI_RGBA_GREEN : Nat
  FI_RGBA_RED : Nat
  FI_RGBA_ALPHA : Nat
deriving DecidableEq, Repr

/-- The image classes of `FREE_IMAGE_TYPE` that `load_image` tells apart. -/
inductive FREE_IMAGE_TYPE where
  | FIT_BITMAP
  | FIT_NOT_BITMAP
deriving DecidableEq, Repr

/-- A loaded `FIBITMAP`, as seen through the accessors `load_image` uses:
`FreeImage_GetImageType`, `FreeImage_GetWidth`, `FreeImage_GetHeight`,
`FreeImage_GetBPP` and `FreeImage_GetScanLine` (`scanline row i` is byte `i` of the
scan line `row`, a `BYTE`). -/
structure FIBITMAP where
  imageType : FREE_IMAGE_TYPE
  width : Nat
  height : Nat
  bpp : Nat
  scanline : Nat → Nat → Fin 256

/-! ## The pixel buffer and the conversion loops -/

/-- The heap block `image32`: one cell per byte, `none` while never stored to. -/
abbrev Buffer := List (Option Nat)

/-- The value of `malloc (n)`: a block of `n` bytes, none of them written. -/
def malloc (n : Nat) : Buffer := List.replicate n none

/-- The statement `image32[off] = v`: out of bounds is undefined behaviour, in bounds
the low eight bits of `v` are stored. -/
def store (image32 : Buffer) (off v : Nat) : Option Buffer :=
  if off < image32.length then some (image32.set off (some (v % 256))) else none

/-- The loop `for (int i = 0 ; i < n ; i++) body`, threading the state `s`. -/
def forLoop {σ : Type} (n : Nat) (body : Nat → σ → Option σ) (s : σ) : Option σ :=
  match n with
  | 0 => some s
  | k + 1 => (forLoop k body s).bind (body k)

/-- Narrowing to `int`: a value above `INT_MAX` is outside the embedding. -/
def toInt (v : Nat) : Option Nat :=
  if v ≤ INT_MAX then some v else none

/-- The constant `bitmap_pad` of `load_image`. -/
def bitmap_pad : Nat := 32

/-- The constant `pad_bytes` of `load_image`. -/
def pad_bytes : Nat := bitmap_pad / 8

/-- The local array `channel_offset` of the 24/32-bit case. -/
def channel_offset (co : ChannelOffsets) (c : Nat) : Nat :=
  match c with
  | 0 => co.FI_RGBA_BLUE
  | 1 => co.FI_RGBA_GREEN
  | 2 => co.FI_RGBA_RED
  | _ => co.FI_RGBA_ALPHA

/-- Body of the `x` loop of `case 24: case 32:` (lines 89-94).  The state is
`image32` together with `raw`, kept as a byte offset into the scan line `line`. -/
def pixel24_32 (co : ChannelOffsets) (line : Nat → Fin 256) (depth_bytes width y : Nat)
    (x : Nat) (s : Buffer × Nat) : Option (Buffer × Nat) :=
  let raw := s.2
  let alpha : Nat := if depth_bytes = 3 then 255 else (line (raw + channel_offset co 3)).val
  (forLoop 3
    (fun c image32 =>
      store image32 ((y * width + x) * pad_bytes + c)
        ((line (raw + channel_offset co c)).val * alpha / 255))
    s.1).bind fun image32 =>
  (store image32 ((y * width + x) * pad_bytes + 3) 255).bind fun image32 =>
  some (image32, raw + depth_bytes)

/-- Body of the `y` loop of `case 24: case 32:` (lines 87-95). -/
def row24_32 (co : ChannelOffsets) (input : FIBITMAP) (depth_bytes width height : Nat)
    (y : Nat) (image32 : Buffer) : Option Buffer :=
  (forLoop width
    (pixel24_32 co (input.scanline (height - y - 1)) depth_bytes width y)
    (image32, 0)).map Prod.fst

/-- Body of the `x` loop of `case 8:` (lines 103-106). -/
def pixel8 (raw : Nat → Fin 256) (width y : Nat) (x : Nat) (image32 : Buffer) :
    Option Buffer :=
  (store image32 ((y * width + x) * pad_bytes + 0) (raw x).val).bind fun image32 =>
  (store image32 ((y * width + x) * pad_bytes + 1) (raw x).val).bind fun image32 =>
  (store image32 ((y * width + x) * pad_bytes + 2) (raw x).val).bind fun image32 =>
  store image32 ((y * width + x) * pad_bytes + 3) 255

/-- Body of the `y` loop of `case 8:` (lines 101-107). -/
def row8 (input : FIBITMAP) (width height : Nat) (y : Nat) (image32 : Buffer) :
    Option Buffer :=
  forLoop width (pixel8 (input.scanline (height - y - 1)) width y) image32

/-- Outcome of the `switch (depth)` of `load_image`. -/
inductive SwitchResult where
  | converted (image32 : Buffer)
  | unsupported
deriving DecidableEq, Repr

/-- The `switch (depth)` of `load_image` (lines 83-117), run on the block `image32`. -/
def switchDepth (co : ChannelOffsets) (input : FIBITMAP) (depth width height : Nat)
    (image32 : Buffer) : Option SwitchResult :=
  let depth_bytes := depth / 8
  if depth = 24 ∨ depth = 32 then
    (forLoop height (row24_32 co input depth_bytes width height) image32).map
      SwitchResult.converted
  else if depth = 8 then
    (forLoop height (row8 input width height) image32).map SwitchResult.converted
  else
    some SwitchResult.unsupported

/-! ## Traces and environments -/

/-- The diagnostics written to `std::cerr`. -/
inductive Diag where
  | usage
  | cannotOpenDisplay
  | unknownFormat
  | couldntReadFormat
  | unsupportedFormat
  | unsupportedDepth (depth : Nat)
  | allocBlackFailed
  | inotifyInitFailed
  | addWatchFailed
  | readNothing
  | readError
deriving DecidableEq, Repr

/-- One observable step of the program: a library or system call, a diagnostic, or
the entry into `redraw` with its image arguments. -/
inductive Act where
  | cerr (d : Diag)
  | FreeImage_GetFileType
  | FreeImage_GetFIFFromFilename
  | FreeImage_FIFSupportsReading (fif : Int)
  | FreeImage_Load (fif : Int)
  | malloc (size : Nat)
  | FreeImage_Unload
  | XCreateImage (width height : Nat)
  | XFreePixmap (pixmap : Nat)
  | XCreatePixmap (width height : Nat)
  | XPutImage (pixmap width height : Nat)
  | XDestroyImage
  | redraw (pixmap img_width img_height : Nat)
  | XGetWindowAttributes
  | XAllocNamedColor
  | XSetForeground
  | XFillRectangle (width height : Nat)
  | XCopyArea (pixmap width height : Nat)
  | XOpenDisplay
  | XCreateSimpleWindow
  | XInternAtom
  | XSetWMProtocols
  | XSelectInput
  | XMapWindow
  | XCreateGC
  | inotify_init1
  | inotify_add_watch
  | read
  | XPending
  | XNextEvent (type : Nat)
  | nanosleep
  | XFreeGC
  | XDestroyWindow
  | XCloseDisplay
deriving DecidableEq, Repr

/-- What the window system answers during one call of `redraw`:
`XGetWindowAttributes` gives the window width and height, or `none` when it returns
zero; `XAllocNamedColor` tells whether "black" was allocated. -/
structure RedrawEnv where
  XGetWindowAttributes : Option (Nat × Nat)
  XAllocNamedColor : Bool

/-- What FreeImage and the window system answer during one call of `load_image`.
`FreeImage_Load` gives `none` for `NULL`; `XCreatePixmap` is the id of the new
pixmap. -/
structure LibEnv where
  FreeImage_GetFileType : Int
  FreeImage_GetFIFFromFilename : Int
  FreeImage_FIFSupportsReading : Int → Bool
  FreeImage_Load : Int → Option FIBITMAP
  XCreatePixmap : Nat

/-- What one pass of the `while (true)` loop of `main` receives: the result of `read`
with `errno`, the answers for a reload and for the redraw after it, and the events
that `XNextEvent` delivers until `XPending` reports none, each with the answers for
the redraw it may trigger. -/
structure IterEnv where
  numRead : Int
  errno : Nat
  reload : LibEnv
  reloadRedraw : RedrawEnv
  events : List (Nat × RedrawEnv)

/-- Everything `main` receives from outside. -/
structure MainEnv where
  argc : Int
  XOpenDisplay : Bool
  load : LibEnv
  inotify_init1 : Int
  inotify_add_watch : Int
  iterations : List IterEnv

/-! ## `redraw` -/

/-- The function `redraw` (lines 19-42): status and calls made. -/
def redraw (env : RedrawEnv) (pixmap img_width img_height : Nat) : Int × List Act :=
  match env.XGetWindowAttributes with
  | none =>
    (EXIT_FAILURE, [Act.redraw pixmap img_width img_height, Act.XGetWindowAttributes])
  | some attrs =>
    if env.XAllocNamedColor = false then
      (EXIT_FAILURE,
        [Act.redraw pixmap img_width img_height, Act.XGetWindowAttributes,
          Act.XAllocNamedColor, Act.cerr Diag.allocBlackFailed])
    else
      (EXIT_SUCCESS,
        [Act.redraw pixmap img_width img_height, Act.XGetWindowAttributes,
          Act.XAllocNamedColor, Act.XSetForeground, Act.XFillRectangle attrs.1 attrs.2,
          Act.XCopyArea pixmap img_width img_height])

/-! ## `load_image` -/

/-- The value of `fif` after lines 47-50: the format found from the file contents,
or else from the file name. -/
def fileFormat (env : LibEnv) : Int :=
  if env.FreeImage_GetFileType = FIF_UNKNOWN then env.FreeImage_GetFIFFromFilename
  else env.FreeImage_GetFileType

/-- What a call of `load_image` leaves behind: the returned status, the reference
parameters `pixmap`, `width`, `height` as they stand at the return, the block
`image32` as handed to `XCreateImage` (if that call was reached), and the calls made. -/
structure LoadResult where
  status : Int
  pixmap : Nat
  width : Nat
  height : Nat
  image32 : Option Buffer
  trace : List Act
deriving DecidableEq, Repr

/-- The function `load_image` (lines 44-133).  `pixmap`, `width`, `height` are the
values of the reference parameters at entry.  The result is `none` when the call runs
into undefined behaviour. -/
def load_image (co : ChannelOffsets) (env : LibEnv) (pixmap width height : Nat) :
    Option LoadResult :=
  let fif := fileFormat env
  let t1 := [Act.FreeImage_GetFileType] ++
    (if env.FreeImage_GetFileType = FIF_UNKNOWN then [Act.FreeImage_GetFIFFromFilename]
      else [])
  if fif = FIF_UNKNOWN then
    some ⟨EXIT_FAILURE, pixmap, width, height, none, t1 ++ [Act.cerr Diag.unknownFormat]⟩
  else
    let t2 := t1 ++ [Act.FreeImage_FIFSupportsReading fif] ++
      (if env.FreeImage_FIFSupportsReading fif = false then
        [Act.cerr Diag.couldntReadFormat] else []) ++
      [Act.FreeImage_Load fif]
    match env.FreeImage_Load fif with
    | none => some ⟨EXIT_FAILURE, pixmap, width, height, none, t2⟩
    | some input =>
      (toInt input.width).bind fun width =>
      (toInt input.height).bind fun height =>
      if input.imageType ≠ FREE_IMAGE_TYPE.FIT_BITMAP then
        some ⟨EXIT_FAILURE, pixmap, width, height, none,
          t2 ++ [Act.cerr Diag.unsupportedFormat]⟩
      else
        let depth := input.bpp
        (toInt (width * height)).bind fun wh =>
        (toInt (wh * pad_bytes)).bind fun size =>
        let image32 := malloc size
        (switchDepth co input depth width height image32).bind fun r =>
        match r with
        | SwitchResult.unsupported =>
          some ⟨EXIT_FAILURE, pixmap, width, height, none,
            t2 ++ [Act.malloc size, Act.cerr (Diag.unsupportedDepth depth)]⟩
        | SwitchResult.converted image32 =>
          let pixmap1 := env.XCreatePixmap
          some ⟨EXIT_SUCCESS, pixmap1, width, height, some image32,
            t2 ++ [Act.malloc size, Act.FreeImage_Unload, Act.XCreateImage width height] ++
              (if pixmap ≠ 0 then [Act.XFreePixmap pixmap] else []) ++
              [Act.XCreatePixmap width height, Act.XPutImage pixmap1 width height,
                Act.XDestroyImage]⟩

/-! ## `main` -/

/-- The variables `pixmap`, `width`, `height` of `main`. -/
structure LoopVars where
  pixmap : Nat
  width : Nat
  height : Nat
deriving DecidableEq, Repr

/-- How one pass of the `while (true)` loop ends: at the closing brace, with the
variables for the next pass, or by leaving `main` with a status. -/
inductive IterResult where
  | next (vars : LoopVars) (trace : List Act)
  | exit (status : Int) (trace : List Act)
deriving DecidableEq, Repr

/-- How a run of `main` ends: it returned a status, or the supplied passes are used
up and the loop is still running, with the variables it holds. -/
inductive Outcome where
  | exited (status : Int) (trace : List Act)
  | running (vars : LoopVars) (trace : List Act)
deriving DecidableEq, Repr

/-- The inner loop `while (XPending(display))` (lines 218-230): whether it left
through `goto exit`, and the calls made. -/
def drain (v : LoopVars) : List (Nat × RedrawEnv) → Bool × List Act
  | [] => (false, [Act.XPending])
  | e :: rest =>
    let t := [Act.XPending, Act.XNextEvent e.1] ++
      (if e.1 = Expose then (redraw e.2 v.pixmap v.width v.height).2 else [])
    if e.1 = ClientMessage then (true, t)
    else
      let r := drain v rest
      (r.1, t ++ r.2)

/-- The statements after the label `exit` (lines 240-245), which return
`EXIT_SUCCESS`. -/
def cleanup (pixmap : Nat) : List Act :=
  (if pixmap ≠ 0 then [Act.XFreePixmap pixmap] else []) ++
    [Act.XFreeGC, Act.XDestroyWindow, Act.XCloseDisplay]

/-- Lines 217-235 and the label `exit`: catch up on the display, then sleep or leave. -/
def catchUp (v : LoopVars) (events : List (Nat × RedrawEnv)) (done : List Act) :
    IterResult :=
  if (drain v events).1 = true then
    IterResult.exit EXIT_SUCCESS (done ++ (drain v events).2 ++ cleanup v.pixmap)
  else
    IterResult.next v (done ++ (drain v events).2 ++ [Act.nanosleep])

/-- One pass of the `while (true)` loop of `main` (lines 193-235). -/
def iteration (co : ChannelOffsets) (v : LoopVars) (it : IterEnv) : Option IterResult :=
  if it.numRead = 0 then
    some (IterResult.exit EXIT_FAILURE [Act.read, Act.cerr Diag.readNothing])
  else if it.numRead = -1 then
    if it.errno = EAGAIN ∨ it.errno = EWOULDBLOCK then
      some (catchUp v it.events [Act.read])
    else
      some (IterResult.exit EXIT_FAILURE [Act.read, Act.cerr Diag.readError])
  else
    (load_image co it.reload v.pixmap v.width v.height).bind fun r =>
    if r.status ≠ EXIT_SUCCESS then
      some (IterResult.exit r.status ([Act.read] ++ r.trace))
    else
      some (catchUp ⟨r.pixmap, r.width, r.height⟩ it.events
        ([Act.read] ++ r.trace ++ (redraw it.reloadRedraw r.pixmap r.width r.height).2))

/-- The `while (true)` loop of `main` over the supplied passes; `done` is the trace
so far. -/
def loop (co : ChannelOffsets) : LoopVars → List IterEnv → List Act → Option Outcome
  | v, [], done => some (Outcome.running v done)
  | v, it :: rest, done =>
    (iteration co v it).bind fun r =>
    match r with
    | IterResult.next v1 t => loop co v1 rest (done ++ t)
    | IterResult.exit status t => some (Outcome.exited status (done ++ t))

/-- The calls of lines 145-167 when the display opens. -/
def startup : List Act :=
  [Act.XOpenDisplay, Act.XCreateSimpleWindow, Act.XInternAtom, Act.XSetWMProtocols,
    Act.XSelectInput, Act.XMapWindow, Act.XCreateGC]

/-- The function `main` (lines 135-246).  `width` and `height` are uninitialised
before the first `load_image`; they enter it as `0` and are not read before being
assigned. -/
def main (co : ChannelOffsets) (env : MainEnv) : Option Outcome :=
  if env.argc ≠ 2 then
    some (Outcome.exited EXIT_FAILURE [Act.cerr Diag.usage])
  else if env.XOpenDisplay = false then
    some (Outcome.exited EXIT_FAILURE [Act.XOpenDisplay, Act.cerr Diag.cannotOpenDisplay])
  else
    (load_image co env.load 0 0 0).bind fun r =>
    if r.status ≠ EXIT_SUCCESS then
      some (Outcome.exited r.status (startup ++ r.trace))
    else if env.inotify_init1 = -1 then
      some (Outcome.exited EXIT_FAILURE
        (startup ++ r.trace ++ [Act.inotify_init1, Act.cerr Diag.inotifyInitFailed]))
    else if env.inotify_add_watch = -1 then
      some (Outcome.exited EXIT_FAILURE
        (startup ++ r.trace ++
          [Act.inotify_init1, Act.inotify_add_watch, Act.cerr Diag.addWatchFailed]))
    else
      loop co ⟨r.pixmap, r.width, r.height⟩ env.iterations
        (startup ++ r.trace ++ [Act.inotify_init1, Act.inotify_add_watch])

/-! ## Definitions used to state the properties -/

/-- Normalisation of pixel `x` of a scan line as section 4.1 of the specification
words it: for 8-bit input the single channel value is replicated into B, G and R;
for 24/32-bit input alpha is read from the source, or taken as 255 when the source
has no alpha channel, and each of B, G, R becomes `(channel * alpha) / 255` with
truncating division; the output alpha is always 255.  The four bytes are listed in
B, G, R, A order. -/
def normalise_spec (co : ChannelOffsets) (depth : Nat) (line : Nat → Fin 256) (x : Nat) :
    List Nat :=
  if depth = 8 then
    let v := (line x).val
    [v, v, v, 255]
  else
    let p := x * (depth / 8)
    let a := if depth = 24 then 255 else (line (p + co.FI_RGBA_ALPHA)).val
    [(line (p + co.FI_RGBA_BLUE)).val * a / 255,
      (line (p + co.FI_RGBA_GREEN)).val * a / 255,
      (line (p + co.FI_RGBA_RED)).val * a / 255,
      255]

/-- The four cells of output pixel `(x, y)`: offsets `(y * width + x) * 4` to
`(y * width + x) * 4 + 3` of the block. -/
def pixelAt (image32 : Buffer) (width x y : Nat) : List (Option Nat) :=
  (image32.drop ((y * width + x) * 4)).take 4

/-- Four consecutive stored bytes, starting at offset `o`. -/
def set4 (b : Buffer) (o v0 v1 v2 v3 : Nat) : Buffer :=
  (((b.set o (some v0)).set (o + 1) (some v1)).set (o + 2) (some v2)).set (o + 3) (some v3)

/-- The dimensions of the image and the byte size `width * height * 4` of its 32-bit
copy are representable in an `int`. -/
def inIntRange (input : FIBITMAP) : Prop :=
  input.width ≤ INT_MAX ∧ input.height ≤ INT_MAX ∧ input.width * input.height * 4 ≤ INT_MAX

instance (input : FIBITMAP) : Decidable (inIntRange input) := by
  unfold inIntRange
  exact inferInstance

/-- The library recognises the format of the file and loads it as the raster image
`input`. -/
def delivers (env : LibEnv) (input : FIBITMAP) : Prop :=
  fileFormat env ≠ FIF_UNKNOWN ∧ env.FreeImage_Load (fileFormat env) = some input ∧
    input.imageType = FREE_IMAGE_TYPE.FIT_BITMAP

/-- The calls of lines 47-59 of `load_image` when the format is recognised: format
detection, the readability check with its diagnostic, and `FreeImage_Load`. -/
def openTrace (env : LibEnv) : List Act :=
  [Act.FreeImage_GetFileType] ++
    (if env.FreeImage_GetFileType = FIF_UNKNOWN then [Act.FreeImage_GetFIFFromFilename]
      else []) ++
    [Act.FreeImage_FIFSupportsReading (fileFormat env)] ++
    (if env.FreeImage_FIFSupportsReading (fileFormat env) = false then
      [Act.cerr Diag.couldntReadFormat] else []) ++
    [Act.FreeImage_Load (fileFormat env)]

/-- The calls of a `load_image` that runs to its last line, for an image of the
given size. -/
def decodeTrace (env : LibEnv) (pixmap width height : Nat) : List Act :=
  openTrace env ++
    [Act.malloc (width * height * 4), Act.FreeImage_Unload,
      Act.XCreateImage width height] ++
    (if pixmap ≠ 0 then [Act.XFreePixmap pixmap] else []) ++
    [Act.XCreatePixmap width height, Act.XPutImage env.XCreatePixmap width height,
      Act.XDestroyImage]

/-- Whether a step is the entry into `redraw`. -/
def isRedraw : Act → Bool
  | Act.redraw _ _ _ => true
  | _ => false

/-- Whether a step touches the window event queue. -/
def isEventCall : Act → Bool
  | Act.XPending => true
  | Act.XNextEvent _ => true
  | _ => false

/-- The calls made while the events `evs` are taken off the queue one by one, each
expose event being answered by a `redraw`. -/
def serviced (v : LoopVars) (evs : List (Nat × RedrawEnv)) : List Act :=
  evs.flatMap fun e =>
    [Act.XPending, Act.XNextEvent e.1] ++
      (if e.1 = Expose then (redraw e.2 v.pixmap v.width v.height).2 else [])

/-- The calls of one pass of the loop. -/
def passTrace : IterResult → List Act
  | IterResult.next _ t => t
  | IterResult.exit _ t => t

/-! ## Sample inputs -/

/-- Channel offsets of a little-endian build of FreeImage. -/
def sampleOffsets : ChannelOffsets := ⟨0, 1, 2, 3⟩

/-- A raster image whose byte `i` of scan line `row` is `row * 100 + i * 10 + 5`
(modulo 256). -/
def sampleBitmap (bpp width height : Nat) : FIBITMAP :=
  ⟨FREE_IMAGE_TYPE.FIT_BITMAP, width, height, bpp,
    fun row i => ⟨(row * 100 + i * 10 + 5) % 256, Nat.mod_lt _ (by decide)⟩⟩

/-- A library that recognises the file, reports the format as `readable` or not, and
loads `input`. -/
def sampleEnv (readable : Bool) (input : FIBITMAP) : LibEnv :=
  ⟨2, 2, fun _ => readable, fun _ => some input, 7⟩

/-- A window of 100 by 100 pixels on which `redraw` succeeds. -/
def sampleRedraw : RedrawEnv := ⟨some (100, 100), true⟩

/-- An 8-bit raster image of 32768 by 32768 pixels. -/
def hugeBitmap : FIBITMAP := sampleBitmap 8 32768 32768

/-- A pass in which `read` delivers 5 bytes, the file now holds a 2 by 1 image of
depth 8, and one expose event is pending. -/
def sampleReloadPass : IterEnv :=
  ⟨5, 0, sampleEnv true (sampleBitmap 8 2 1), sampleRedraw, [(Expose, sampleRedraw)]⟩

/-- What `load_image` leaves behind in `sampleReloadPass` when the caller holds
pixmap 3. -/
def sampleReloaded : LoadResult :=
  ⟨EXIT_SUCCESS, 7, 2, 1,
    some [some 5, some 5, some 5, some 255, some 15, some 15, some 15, some 255],
    [Act.FreeImage_GetFileType, Act.FreeImage_FIFSupportsReading 2, Act.FreeImage_Load 2,
      Act.malloc 8, Act.FreeImage_Unload, Act.XCreateImage 2 1, Act.XFreePixmap 3,
      Act.XCreatePixmap 2 1, Act.XPutImage 7 2 1, Act.XDestroyImage]⟩

/-- A pass whose `read` returns `numRead` (with `errno` set to `EAGAIN`) while an
expose event, a close event and another expose event are pending. -/
def closePass (numRead : Int) : IterEnv :=
  ⟨numRead, EAGAIN, sampleEnv true (sampleBitmap 8 2 1), sampleRedraw,
    [(Expose, sampleRedraw), (ClientMessage, sampleRedraw), (Expose, sampleRedraw)]⟩

/-- A pass in which `read` would block and no window event is pending. -/
def idlePass : IterEnv :=
  ⟨-1, EAGAIN, sampleEnv true (sampleBitmap 8 2 1), sampleRedraw, []⟩

/-- A pass in which `read` delivers 5 bytes and the file now holds a 1 by 1 image of
depth 16. -/
def badReloadPass : IterEnv :=
  ⟨5, 0, sampleEnv true (sampleBitmap 16 1 1), sampleRedraw, []⟩

/-- A run that starts on a 2 by 1 image of depth 8, idles for one pass and then finds
an image of depth 16 in the file. -/
def sampleMain : MainEnv :=
  ⟨2, true, sampleEnv true (sampleBitmap 8 2 1), 3, 1, [idlePass, badReloadPass]⟩

/-- What `load_image` leaves behind in `badReloadPass` when the caller holds
pixmap 7 of a 2 by 1 image. -/
def sampleRejected : LoadResult :=
  ⟨EXIT_FAILURE, 7, 1, 1, none,
    [Act.FreeImage_GetFileType, Act.FreeImage_FIFSupportsReading 2, Act.FreeImage_Load 2,
      Act.malloc 4, Act.cerr (Diag.unsupportedDepth 16)]⟩

/-- The calls of `sampleMain` up to the end of its first pass. -/
def sampleMainIdle : List Act :=
  startup ++
    [Act.FreeImage_GetFileType, Act.FreeImage_FIFSupportsReading 2, Act.FreeImage_Load 2,
      Act.malloc 8, Act.FreeImage_Unload, Act.XCreateImage 2 1, Act.XCreatePixmap 2 1,
      Act.XPutImage 7 2 1, Act.XDestroyImage, Act.inotify_init1, Act.inotify_add_watch,
      Act.read, Act.XPending, Act.nanosleep]

/-! ## Loops and stores -/

theorem forLoop_inv {σ : Type} (P : Nat → σ → Prop) (body : Nat → σ → Option σ) (s : σ) :
    ∀ n : Nat, P 0 s →
      (∀ k t, k < n → P k t → ∃ t1, body k t = some t1 ∧ P (k + 1) t1) →
      ∃ t, forLoop n body s = some t ∧ P n t := by
  intro n
  induction n with
  | zero => intro h0 _; exact ⟨s, rfl, h0⟩
  | succ k ih =>
    intro h0 hstep
    obtain ⟨t, ht, hP⟩ := ih h0 (fun j u hj hu => hstep j u (Nat.lt_succ_of_lt hj) hu)
    obtain ⟨t1, ht1, hP1⟩ := hstep k t (Nat.lt_succ_self k) hP
    exact ⟨t1, by simp [forLoop, ht, ht1], hP1⟩

theorem forLoop_three {σ : Type} (body : Nat → σ → Option σ) (s : σ) :
    forLoop 3 body s = ((body 0 s).bind (body 1)).bind (body 2) := rfl

theorem store_of_lt (b : Buffer) (off v : Nat) (h : off < b.length) :
    store b off v = some (b.set off (some (v % 256))) := by
  simp [store, h]

theorem set4_length (b : Buffer) (o v0 v1 v2 v3 : Nat) :
    (set4 b o v0 v1 v2 v3).length = b.length := by
  simp [set4]

theorem set4_other (b : Buffer) (o v0 v1 v2 v3 i : Nat) (h : i < o ∨ o + 4 ≤ i) :
    (set4 b o v0 v1 v2 v3)[i]? = b[i]? := by
  unfold set4
  rw [List.getElem?_set_ne (by omega), List.getElem?_set_ne (by omega),
    List.getElem?_set_ne (by omega), List.getElem?_set_ne (by omega)]

theorem set4_at (b : Buffer) (o v0 v1 v2 v3 : Nat) (h : o + 3 < b.length) :
    (set4 b o v0 v1 v2 v3)[o]? = some (some v0) ∧
    (set4 b o v0 v1 v2 v3)[o + 1]? = some (some v1) ∧
    (set4 b o v0 v1 v2 v3)[o + 2]? = some (some v2) ∧
    (set4 b o v0 v1 v2 v3)[o + 3]? = some (some v3) := by
  unfold set4
  refine ⟨?_, ?_, ?_, ?_⟩
  · rw [List.getElem?_set_ne (by omega), List.getElem?_set_ne (by omega),
      List.getElem?_set_ne (by omega), List.getElem?_set_self (by omega)]
  · rw [List.getElem?_set_ne (by omega), List.getElem?_set_ne (by omega),
      List.getElem?_set_self (by simp; omega)]
  · rw [List.getElem?_set_ne (by omega), List.getElem?_set_self (by simp; omega)]
  · rw [List.getElem?_set_self (by simp; omega)]


theorem set4_at_channel (b : Buffer) (o : Nat) (g : Nat → Nat) (c : Nat) (hc : c < 4)
    (h : o + 3 < b.length) :
    (set4 b o (g 0) (g 1) (g 2) (g 3))[o + c]? = some (some (g c)) := by
  obtain ⟨h0, h1, h2, h3⟩ := set4_at b o (g 0) (g 1) (g 2) (g 3) h
  interval_cases c
  · simpa using h0
  · exact h1
  · exact h2
  · exact h3

/-- One row: if every pass of the `x` loop stores the four bytes `G x 0 .. G x 3` at
pixel `k + x`, the loop fills pixels `k .. k + w - 1` and leaves the bytes below
pixel `k` alone. -/
theorem row_fill (σ : Type) (buf : σ → Buffer) (aux : Nat → σ → Prop)
    (body : Nat → σ → Option σ) (G : Nat → Nat → Nat) (k w N : Nat)
    (hbody : ∀ x s, x < w → aux x s → (k + x) * 4 + 3 < (buf s).length →
      ∃ s1, body x s = some s1 ∧ aux (x + 1) s1 ∧
        buf s1 = set4 (buf s) ((k + x) * 4) (G x 0) (G x 1) (G x 2) (G x 3))
    (s0 : σ) (haux : aux 0 s0) (hlen : (buf s0).length = N) (hN : (k + w) * 4 ≤ N) :
    ∃ s1, forLoop w body s0 = some s1 ∧ (buf s1).length = N ∧
      (∀ i, i < k * 4 → (buf s1)[i]? = (buf s0)[i]?) ∧
      ∀ x c, x < w → c < 4 → (buf s1)[(k + x) * 4 + c]? = some (some (G x c)) := by
  have key := forLoop_inv
    (fun x s => aux x s ∧ (buf s).length = N ∧
      (∀ i, i < k * 4 → (buf s)[i]? = (buf s0)[i]?) ∧
      ∀ x1 c, x1 < x → c < 4 → (buf s)[(k + x1) * 4 + c]? = some (some (G x1 c)))
    body s0 w ⟨haux, hlen, fun _ _ => rfl, fun x1 c hx1 _ => absurd hx1 (Nat.not_lt_zero _)⟩
    (by
      intro x s hx ⟨ha, hl, hlow, hdone⟩
      have hb : (k + x) * 4 + 3 < (buf s).length := by omega
      obtain ⟨s1, hs1, ha1, hbuf⟩ := hbody x s hx ha hb
      refine ⟨s1, hs1, ha1, ?_, ?_, ?_⟩
      · rw [hbuf, set4_length]; exact hl
      · intro i hi
        rw [hbuf, set4_other _ _ _ _ _ _ i (by omega)]
        exact hlow i hi
      · intro x1 c hx1 hc
        by_cases hxx : x1 = x
        · subst hxx
          rw [hbuf]
          exact set4_at_channel (buf s) ((k + x1) * 4) (G x1) c hc hb
        · rw [hbuf, set4_other _ _ _ _ _ _ _ (by omega)]
          exact hdone x1 c (by omega) hc)
  obtain ⟨s1, hs1, _, hl, hlow, hdone⟩ := key
  exact ⟨s1, hs1, hl, hlow, hdone⟩

/-- All rows: if the pass for row `y` fills pixels `y * w .. y * w + w - 1` and leaves
the bytes below alone, the `y` loop fills the whole block. -/
theorem rows_fill (rowBody : Nat → Buffer → Option Buffer) (G : Nat → Nat → Nat → Nat)
    (w h N : Nat)
    (hrow : ∀ y b, y < h → b.length = N →
      ∃ b1, rowBody y b = some b1 ∧ b1.length = N ∧
        (∀ i, i < y * w * 4 → b1[i]? = b[i]?) ∧
        ∀ x c, x < w → c < 4 → b1[(y * w + x) * 4 + c]? = some (some (G y x c)))
    (b0 : Buffer) (hlen : b0.length = N) :
    ∃ b, forLoop h rowBody b0 = some b ∧ b.length = N ∧
      ∀ y x c, y < h → x < w → c < 4 →
        b[(y * w + x) * 4 + c]? = some (some (G y x c)) := by
  refine forLoop_inv
    (fun y b => b.length = N ∧ ∀ y1 x c, y1 < y → x < w → c < 4 →
      b[(y1 * w + x) * 4 + c]? = some (some (G y1 x c)))
    rowBody b0 h ⟨hlen, fun y1 x c hy1 _ _ => absurd hy1 (Nat.not_lt_zero _)⟩ ?_
  intro y b hy ⟨hl, hdone⟩
  obtain ⟨b1, hb1, hl1, hlow, hnew⟩ := hrow y b hy hl
  refine ⟨b1, hb1, hl1, ?_⟩
  intro y1 x c hy1 hx hc
  by_cases hyy : y1 = y
  · subst hyy; exact hnew x c hx hc
  · have hlt : y1 < y := by omega
    have hmul : (y1 + 1) * w ≤ y * w := Nat.mul_le_mul_right w hlt
    have hexp : (y1 + 1) * w = y1 * w + w := by ring
    rw [hlow _ (by omega)]
    exact hdone y1 x c hlt hx hc


theorem premultiplied_lt (v a : Nat) (hv : v < 256) (ha : a < 256) :
    v * a / 255 % 256 = v * a / 255 := by
  have h : v * a ≤ 255 * 255 := Nat.mul_le_mul (by omega) (by omega)
  omega

theorem byte_mod (v : Fin 256) : v.val % 256 = v.val := Nat.mod_eq_of_lt v.isLt

theorem pixel24_32_eq (co : ChannelOffsets) (line : Nat → Fin 256) (depth width y x : Nat)
    (hd : depth = 24 ∨ depth = 32) (b : Buffer) (hb : (y * width + x) * 4 + 3 < b.length) :
    pixel24_32 co line (depth / 8) width y x (b, x * (depth / 8)) =
      some (set4 b ((y * width + x) * 4)
        ((normalise_spec co depth line x).getD 0 0) ((normalise_spec co depth line x).getD 1 0)
        ((normalise_spec co depth line x).getD 2 0) ((normalise_spec co depth line x).getD 3 0),
        (x + 1) * (depth / 8)) := by
  have h0 : (y * width + x) * 4 < b.length := by omega
  have h1 : (y * width + x) * 4 + 1 < b.length := by omega
  have h2 : (y * width + x) * 4 + 2 < b.length := by omega
  have hmul : (x + 1) * (depth / 8) = x * (depth / 8) + depth / 8 := by ring
  rcases hd with hd | hd <;> subst hd <;>
    simp [pixel24_32, forLoop_three, store, pad_bytes, bitmap_pad, h0, h1, h2, hb, set4,
      normalise_spec, channel_offset, premultiplied_lt, hmul, Nat.mul_div_cancel, byte_mod]

theorem pixel8_eq (co : ChannelOffsets) (raw : Nat → Fin 256) (width y x : Nat) (b : Buffer)
    (hb : (y * width + x) * 4 + 3 < b.length) :
    pixel8 raw width y x b =
      some (set4 b ((y * width + x) * 4)
        ((normalise_spec co 8 raw x).getD 0 0) ((normalise_spec co 8 raw x).getD 1 0)
        ((normalise_spec co 8 raw x).getD 2 0) ((normalise_spec co 8 raw x).getD 3 0)) := by
  have h0 : (y * width + x) * 4 < b.length := by omega
  have h1 : (y * width + x) * 4 + 1 < b.length := by omega
  have h2 : (y * width + x) * 4 + 2 < b.length := by omega
  simp [pixel8, store, pad_bytes, bitmap_pad, h0, h1, h2, hb, set4, normalise_spec, byte_mod]


theorem row24_32_fill (co : ChannelOffsets) (input : FIBITMAP) (depth width height N y : Nat)
    (hd : depth = 24 ∨ depth = 32) (b : Buffer) (hlen : b.length = N)
    (hN : (y * width + width) * 4 ≤ N) :
    ∃ b1, row24_32 co input (depth / 8) width height y b = some b1 ∧ b1.length = N ∧
      (∀ i, i < y * width * 4 → b1[i]? = b[i]?) ∧
      ∀ x c, x < width → c < 4 →
        b1[(y * width + x) * 4 + c]? =
          some (some ((normalise_spec co depth (input.scanline (height - y - 1)) x).getD c 0)) := by
  obtain ⟨s1, hs1, hl, hlow, hnew⟩ := row_fill (Buffer × Nat) Prod.fst
    (fun x s => s.2 = x * (depth / 8))
    (pixel24_32 co (input.scanline (height - y - 1)) (depth / 8) width y)
    (fun x c => (normalise_spec co depth (input.scanline (height - y - 1)) x).getD c 0)
    (y * width) width N
    (by
      rintro x ⟨b2, raw⟩ _ hraw hb
      simp only at hraw hb
      subst hraw
      exact ⟨_, pixel24_32_eq co _ depth width y x hd b2 hb, rfl, rfl⟩)
    (b, 0) (by simp) hlen hN
  exact ⟨s1.1, by simp [row24_32, hs1], hl, hlow, hnew⟩

theorem row8_fill (co : ChannelOffsets) (input : FIBITMAP) (width height N y : Nat)
    (b : Buffer) (hlen : b.length = N) (hN : (y * width + width) * 4 ≤ N) :
    ∃ b1, row8 input width height y b = some b1 ∧ b1.length = N ∧
      (∀ i, i < y * width * 4 → b1[i]? = b[i]?) ∧
      ∀ x c, x < width → c < 4 →
        b1[(y * width + x) * 4 + c]? =
          some (some ((normalise_spec co 8 (input.scanline (height - y - 1)) x).getD c 0)) :=
  row_fill Buffer id (fun _ _ => True)
    (pixel8 (input.scanline (height - y - 1)) width y)
    (fun x c => (normalise_spec co 8 (input.scanline (height - y - 1)) x).getD c 0)
    (y * width) width N
    (by
      intro x b2 _ _ hb
      exact ⟨_, pixel8_eq co _ width y x b2 hb, trivial, rfl⟩)
    b trivial hlen hN

/-- The `switch` on a supported depth converts the whole block: the result has the
length of the block it was given and pixel `(x, y)` holds the normalisation of pixel
`x` of scan line `height - y - 1`. -/
theorem switchDepth_supported (co : ChannelOffsets) (input : FIBITMAP) (depth width height : Nat)
    (hd : depth = 8 ∨ depth = 24 ∨ depth = 32) :
    ∃ b, switchDepth co input depth width height (malloc (width * height * 4)) =
        some (SwitchResult.converted b) ∧
      b.length = width * height * 4 ∧
      ∀ y x c, y < height → x < width → c < 4 →
        b[(y * width + x) * 4 + c]? =
          some (some ((normalise_spec co depth (input.scanline (height - y - 1)) x).getD c 0)) := by
  have hrowN : ∀ y, y < height → (y * width + width) * 4 ≤ width * height * 4 := by
    intro y hy
    have h1 : (y + 1) * width ≤ height * width := Nat.mul_le_mul_right width hy
    have h2 : (y + 1) * width = y * width + width := by ring
    have h3 : height * width = width * height := Nat.mul_comm _ _
    omega
  have hm : (malloc (width * height * 4)).length = width * height * 4 := by simp [malloc]
  by_cases h8 : depth = 8
  · subst h8
    obtain ⟨b, hb, hl, hv⟩ := rows_fill (row8 input width height)
      (fun y x c => (normalise_spec co 8 (input.scanline (height - y - 1)) x).getD c 0)
      width height (width * height * 4)
      (fun y b hy hlen => row8_fill co input width height _ y b hlen (hrowN y hy))
      (malloc (width * height * 4)) hm
    exact ⟨b, by simp [switchDepth, hb], hl, hv⟩
  · have hd2 : depth = 24 ∨ depth = 32 := by omega
    obtain ⟨b, hb, hl, hv⟩ := rows_fill (row24_32 co input (depth / 8) width height)
      (fun y x c => (normalise_spec co depth (input.scanline (height - y - 1)) x).getD c 0)
      width height (width * height * 4)
      (fun y b hy hlen => row24_32_fill co input depth width height _ y hd2 b hlen (hrowN y hy))
      (malloc (width * height * 4)) hm
    exact ⟨b, by simp [switchDepth, hd2, hb], hl, hv⟩


theorem normalise_spec_length (co : ChannelOffsets) (depth : Nat) (line : Nat → Fin 256) (x : Nat) :
    (normalise_spec co depth line x).length = 4 := by
  unfold normalise_spec
  split <;> simp

theorem pixelAt_eq (b : Buffer) (width x y : Nat) (l : List Nat) (hl : l.length = 4)
    (h : ∀ c, c < 4 → b[(y * width + x) * 4 + c]? = some (some (l.getD c 0))) :
    pixelAt b width x y = l.map some := by
  apply List.ext_getElem?
  intro i
  unfold pixelAt
  by_cases hi : i < 4
  · rw [List.getElem?_take_of_lt hi, List.getElem?_drop, h i hi]
    simp [List.getD_eq_getElem?_getD, List.getElem?_eq_getElem (show i < l.length by omega)]
  · rw [List.getElem?_eq_none (by simp; omega), List.getElem?_eq_none (by simp; omega)]


theorem load_image_supported (co : ChannelOffsets) (env : LibEnv) (pixmap width height : Nat)
    (input : FIBITMAP) (hfif : fileFormat env ≠ FIF_UNKNOWN)
    (hload : env.FreeImage_Load (fileFormat env) = some input)
    (htype : input.imageType = FREE_IMAGE_TYPE.FIT_BITMAP)
    (hd : input.bpp = 8 ∨ input.bpp = 24 ∨ input.bpp = 32) (hfit : inIntRange input) :
    ∃ b, load_image co env pixmap width height =
        some ⟨EXIT_SUCCESS, env.XCreatePixmap, input.width, input.height, some b,
          decodeTrace env pixmap input.width input.height⟩ ∧
      b.length = input.width * input.height * 4 ∧
      ∀ y x c, y < input.height → x < input.width → c < 4 →
        b[(y * input.width + x) * 4 + c]? =
          some (some ((normalise_spec co input.bpp
            (input.scanline (input.height - y - 1)) x).getD c 0)) := by
  obtain ⟨b, hb, hl, hv⟩ := switchDepth_supported co input input.bpp input.width input.height hd
  obtain ⟨hw, hh, hwh⟩ := hfit
  have hwh2 : input.width * input.height ≤ INT_MAX := by omega
  refine ⟨b, ?_, hl, hv⟩
  simp [load_image, hfif, hload, htype, toInt, hw, hh, hwh, hwh2, pad_bytes, bitmap_pad, hb,
    decodeTrace, openTrace]


/-- On a supported depth and within the `int` range, `load_image` succeeds and every
output pixel `(x, y)` is the normalisation of pixel `x` of scan line
`height - y - 1`. -/
theorem load_image_supported_pixels (co : ChannelOffsets) (env : LibEnv)
    (pixmap width height : Nat) (input : FIBITMAP) (henv : delivers env input)
    (hd : input.bpp = 8 ∨ input.bpp = 24 ∨ input.bpp = 32) (hfit : inIntRange input) :
    ∃ b, load_image co env pixmap width height =
        some ⟨EXIT_SUCCESS, env.XCreatePixmap, input.width, input.height, some b,
          decodeTrace env pixmap input.width input.height⟩ ∧
      b.length = input.width * input.height * 4 ∧
      ∀ y x, y < input.height → x < input.width →
        pixelAt b input.width x y =
          (normalise_spec co input.bpp (input.scanline (input.height - y - 1)) x).map some := by
  obtain ⟨hfif, hload, htype⟩ := henv
  obtain ⟨b, hb, hl, hv⟩ :=
    load_image_supported co env pixmap width height input hfif hload htype hd hfit
  exact ⟨b, hb, hl, fun y x hy hx =>
    pixelAt_eq b input.width x y _ (normalise_spec_length _ _ _ _) (fun c hc => hv y x c hy hx hc)⟩

theorem inIntRange_of_pixel (input : FIBITMAP) (x y : Nat) (hx : x < input.width)
    (hy : y < input.height) (hfit : input.width * input.height * 4 ≤ INT_MAX) :
    inIntRange input := by
  have h1 : input.width ≤ input.width * input.height :=
    Nat.le_mul_of_pos_right _ (by omega)
  have h2 : input.height ≤ input.width * input.height :=
    Nat.le_mul_of_pos_left _ (by omega)
  exact ⟨by omega, by omega, hfit⟩

theorem flip_row (h row : Nat) (hrow : row < h) : h - (h - 1 - row) - 1 = row := by omega

/-- Every offset below `width * height * 4` is channel `c` of some pixel `(x, y)`. -/
theorem offset_split (width height i : Nat) (hi : i < width * height * 4) :
    ∃ y x c, y < height ∧ x < width ∧ c < 4 ∧ i = (y * width + x) * 4 + c := by
  have hw : 0 < width := by
    rcases Nat.eq_zero_or_pos width with h | h
    · subst h; simp at hi
    · exact h
  have hp : i / 4 < width * height := by omega
  refine ⟨i / 4 / width, i / 4 % width, i % 4, ?_, Nat.mod_lt _ hw, Nat.mod_lt _ (by decide), ?_⟩
  · exact Nat.div_lt_of_lt_mul hp
  · have h1 : i / 4 / width * width + i / 4 % width = i / 4 := Nat.div_add_mod' _ _
    rw [h1]
    omega

/-- Every pixel offset lies inside a block of `width * height * 4` bytes. -/
theorem offset_in_block (width height x y c : Nat) (hx : x < width) (hy : y < height)
    (hc : c < 4) : (y * width + x) * 4 + c < width * height * 4 := by
  have h1 : (y + 1) * width ≤ height * width := Nat.mul_le_mul_right width hy
  have h2 : (y + 1) * width = y * width + width := by ring
  have h3 : height * width = width * height := Nat.mul_comm _ _
  omega

/-! ## Results of `load_image` -/

theorem toInt_eq_some (v w : Nat) (h : toInt v = some w) : w = v ∧ v ≤ INT_MAX := by
  unfold toInt at h
  split at h
  · exact ⟨by simpa using h.symm, by assumption⟩
  · simp at h

/-- A step that is no entry into `redraw`, no event-queue call and no sleep. -/
theorem openTrace_quiet (env : LibEnv) (a : Act) (ha : a ∈ openTrace env) :
    isRedraw a = false ∧ isEventCall a = false ∧ a ≠ Act.nanosleep := by
  unfold openTrace at ha
  split_ifs at ha <;> simp at ha <;> rcases ha with rfl | rfl | rfl | rfl | rfl <;>
    simp [isRedraw, isEventCall]

theorem decodeTrace_quiet (env : LibEnv) (pixmap width height : Nat) (a : Act)
    (ha : a ∈ decodeTrace env pixmap width height) :
    isRedraw a = false ∧ isEventCall a = false ∧ a ≠ Act.nanosleep := by
  unfold decodeTrace at ha
  simp only [List.mem_append] at ha
  rcases ha with ((ha | ha) | ha) | ha
  · exact openTrace_quiet env a ha
  · simp at ha; rcases ha with rfl | rfl | rfl <;> simp [isRedraw, isEventCall]
  · split_ifs at ha <;> simp at ha; subst ha; simp [isRedraw, isEventCall]
  · simp at ha; rcases ha with rfl | rfl | rfl <;> simp [isRedraw, isEventCall]

theorem switchDepth_cases (co : ChannelOffsets) (input : FIBITMAP) (depth width height : Nat)
    (image32 : Buffer) (res : SwitchResult)
    (h : switchDepth co input depth width height image32 = some res) :
    (res = SwitchResult.unsupported ∧ depth ≠ 8 ∧ depth ≠ 24 ∧ depth ≠ 32) ∨
    ∃ b, res = SwitchResult.converted b ∧ (depth = 8 ∨ depth = 24 ∨ depth = 32) := by
  unfold switchDepth at h
  split_ifs at h with h1 h2
  · simp only [Option.map_eq_some'] at h
    obtain ⟨b, -, rfl⟩ := h
    exact Or.inr ⟨b, rfl, by omega⟩
  · simp only [Option.map_eq_some'] at h
    obtain ⟨b, -, rfl⟩ := h
    exact Or.inr ⟨b, rfl, by omega⟩
  · injection h with h
    exact Or.inl ⟨h.symm, by omega⟩

/-- The two ways a defined call of `load_image` ends: with `EXIT_FAILURE`, the pixmap
untouched and no block handed on, or with `EXIT_SUCCESS` on a raster image of a
supported depth, the new pixmap built from it and the variables set to its size. -/
theorem load_image_cases (co : ChannelOffsets) (env : LibEnv) (pixmap width height : Nat)
    (r : LoadResult) (h : load_image co env pixmap width height = some r) :
    (r.status = EXIT_FAILURE ∧ r.pixmap = pixmap ∧ r.image32 = none ∧
      ∀ a ∈ r.trace, isRedraw a = false ∧ isEventCall a = false ∧ a ≠ Act.nanosleep) ∨
    ∃ input b, delivers env input ∧
      (input.bpp = 8 ∨ input.bpp = 24 ∨ input.bpp = 32) ∧ inIntRange input ∧
      r = ⟨EXIT_SUCCESS, env.XCreatePixmap, input.width, input.height, some b,
        decodeTrace env pixmap input.width input.height⟩ := by
  unfold load_image at h
  by_cases hfif : fileFormat env = FIF_UNKNOWN
  · simp only [hfif, if_true] at h
    left
    injection h with h
    subst h
    refine ⟨rfl, rfl, rfl, ?_⟩
    intro a ha
    split at ha <;> simp at ha <;> rcases ha with rfl | rfl | rfl <;> simp [isRedraw, isEventCall]
  · simp only [hfif, if_false] at h
    cases hload : env.FreeImage_Load (fileFormat env) with
    | none =>
      simp only [hload] at h
      left
      injection h with h
      subst h
      exact ⟨rfl, rfl, rfl, fun a ha => openTrace_quiet env a ha⟩
    | some input =>
      simp only [hload, Option.bind_eq_some] at h
      obtain ⟨w, hw, ht, hht, h⟩ := h
      obtain ⟨rfl, hwle⟩ := toInt_eq_some _ _ hw
      obtain ⟨rfl, hhle⟩ := toInt_eq_some _ _ hht
      by_cases htype : input.imageType = FREE_IMAGE_TYPE.FIT_BITMAP
      · simp only [htype, ne_eq, not_true_eq_false, if_false, Option.bind_eq_some] at h
        obtain ⟨wh, hwh, size, hsize, res, hres, h⟩ := h
        obtain ⟨rfl, hwhle⟩ := toInt_eq_some _ _ hwh
        obtain ⟨rfl, hsizele⟩ := toInt_eq_some _ _ hsize
        have hpad : input.width * input.height * pad_bytes = input.width * input.height * 4 := rfl
        rw [hpad] at hres h hsizele
        rcases switchDepth_cases _ _ _ _ _ _ _ hres with ⟨rfl, -⟩ | ⟨b, rfl, hd⟩
        · left
          injection h with h
          subst h
          refine ⟨rfl, rfl, rfl, ?_⟩
          intro a ha
          rcases List.mem_append.mp ha with ha | ha
          · exact openTrace_quiet env a ha
          · simp at ha; rcases ha with rfl | rfl <;> simp [isRedraw, isEventCall]
        · right
          injection h with h
          subst h
          exact ⟨input, b, ⟨hfif, hload, htype⟩, hd, ⟨hwle, hhle, hsizele⟩, rfl⟩
      · simp only [ne_eq, htype, not_false_eq_true, if_true] at h
        left
        injection h with h
        subst h
        refine ⟨rfl, rfl, rfl, ?_⟩
        intro a ha
        rcases List.mem_append.mp ha with ha | ha
        · exact openTrace_quiet env a ha
        · simp at ha; subst ha; simp [isRedraw, isEventCall]

/-! ## `redraw` and the event queue -/

/-- A call of `redraw` enters `redraw` once, with the arguments it was given, and
touches neither the event queue nor the clock. -/
theorem redraw_calls (env : RedrawEnv) (pixmap w h : Nat) :
    (redraw env pixmap w h).2.filter isRedraw = [Act.redraw pixmap w h] ∧
    (redraw env pixmap w h).2.filter isEventCall = [] ∧
    (redraw env pixmap w h).2.head? = some (Act.redraw pixmap w h) ∧
    Act.nanosleep ∉ (redraw env pixmap w h).2 := by
  unfold redraw
  cases env.XGetWindowAttributes with
  | none => simp [isRedraw, isEventCall]
  | some attrs =>
    cases env.XAllocNamedColor <;> simp [isRedraw, isEventCall]

theorem mem_filter_isRedraw (l : List Act) (a : Act) (ha : a ∈ l) (hr : isRedraw a = true) :
    a ∈ l.filter isRedraw :=
  List.mem_filter.mpr ⟨ha, hr⟩

/-- Every `redraw` entered while events are serviced has the arguments held in the
loop variables; servicing does not sleep. -/
theorem serviced_calls (v : LoopVars) (evs : List (Nat × RedrawEnv)) :
    (∀ a ∈ serviced v evs, isRedraw a = true → a = Act.redraw v.pixmap v.width v.height) ∧
    Act.nanosleep ∉ serviced v evs ∧
    (serviced v evs).filter isEventCall =
      evs.flatMap (fun e => [Act.XPending, Act.XNextEvent e.1]) := by
  induction evs with
  | nil => simp [serviced]
  | cons e rest ih =>
    obtain ⟨ih1, ih2, ih3⟩ := ih
    obtain ⟨hr1, hr2, -, hr4⟩ := redraw_calls e.2 v.pixmap v.width v.height
    have hcons : serviced v (e :: rest) =
        ([Act.XPending, Act.XNextEvent e.1] ++
          (if e.1 = Expose then (redraw e.2 v.pixmap v.width v.height).2 else [])) ++
        serviced v rest := by
      simp [serviced, List.flatMap_cons]
    rw [hcons]
    refine ⟨?_, ?_, ?_⟩
    · intro a ha hra
      rcases List.mem_append.mp ha with ha | ha
      · rcases List.mem_append.mp ha with ha | ha
        · simp at ha
          rcases ha with rfl | rfl <;> simp [isRedraw] at hra
        · split_ifs at ha
          · have := mem_filter_isRedraw _ a ha hra
            rw [hr1] at this
            simpa using this
          · simp at ha
      · exact ih1 a ha hra
    · intro ha
      rcases List.mem_append.mp ha with ha | ha
      · rcases List.mem_append.mp ha with ha | ha
        · simp at ha
        · split_ifs at ha
          · exact hr4 ha
          · simp at ha
      · exact ih2 ha
    · rw [List.filter_append, List.filter_append, ih3]
      split_ifs <;> simp [isEventCall, hr2, List.flatMap_cons]

/-- A queue with a close event at its head, after the events `pre` that are not close
events: the inner loop services `pre`, takes the close event and leaves. -/
theorem drain_closed (v : LoopVars) (pre : List (Nat × RedrawEnv)) (renv : RedrawEnv)
    (post : List (Nat × RedrawEnv)) (hpre : ∀ e ∈ pre, e.1 ≠ ClientMessage) :
    drain v (pre ++ (ClientMessage, renv) :: post) =
      (true, serviced v pre ++ [Act.XPending, Act.XNextEvent ClientMessage]) := by
  induction pre with
  | nil => simp [drain, serviced, ClientMessage, Expose]
  | cons e rest ih =>
    have he : e.1 ≠ ClientMessage := hpre e (List.mem_cons_self _ _)
    have ih1 := ih (fun e1 h1 => hpre e1 (List.mem_cons_of_mem _ h1))
    simp [drain, he, ih1, serviced, List.flatMap_cons]

/-- A queue without a close event: the inner loop services all of it and ends when
`XPending` reports nothing. -/
theorem drain_open (v : LoopVars) (evs : List (Nat × RedrawEnv))
    (h : ∀ e ∈ evs, e.1 ≠ ClientMessage) :
    drain v evs = (false, serviced v evs ++ [Act.XPending]) := by
  induction evs with
  | nil => simp [drain, serviced]
  | cons e rest ih =>
    have he : e.1 ≠ ClientMessage := h e (List.mem_cons_self _ _)
    have ih1 := ih (fun e1 h1 => h e1 (List.mem_cons_of_mem _ h1))
    simp [drain, he, ih1, serviced, List.flatMap_cons]

/-- A queue either has a first close event or has none. -/
theorem first_close (evs : List (Nat × RedrawEnv)) :
    (∃ pre renv post, evs = pre ++ (ClientMessage, renv) :: post ∧
      ∀ e ∈ pre, e.1 ≠ ClientMessage) ∨
    ∀ e ∈ evs, e.1 ≠ ClientMessage := by
  induction evs with
  | nil => right; simp
  | cons e rest ih =>
    by_cases he : e.1 = ClientMessage
    · left
      refine ⟨[], e.2, rest, ?_, by simp⟩
      cases e
      simp at he
      simp [he]
    · rcases ih with ⟨pre, renv, post, hrest, hpre⟩ | hnone
      · left
        refine ⟨e :: pre, renv, post, by simp [hrest], ?_⟩
        intro e1 h1
        rcases List.mem_cons.mp h1 with rfl | h1
        · exact he
        · exact hpre e1 h1
      · right
        intro e1 h1
        rcases List.mem_cons.mp h1 with rfl | h1
        · exact he
        · exact hnone e1 h1

/-! ## One pass of the loop -/

theorem drain_head (v : LoopVars) (evs : List (Nat × RedrawEnv)) :
    (drain v evs).2.head? = some Act.XPending := by
  cases evs with
  | nil => rfl
  | cons e rest =>
    unfold drain
    split_ifs <;> simp

theorem cleanup_calls (pixmap : Nat) (a : Act) (ha : a ∈ cleanup pixmap) :
    isRedraw a = false ∧ isEventCall a = false ∧ a ≠ Act.nanosleep := by
  unfold cleanup at ha
  split_ifs at ha <;> simp at ha <;> rcases ha with rfl | rfl | rfl | rfl <;>
    simp [isRedraw, isEventCall]

/-- Every `redraw` entered by the inner loop has the arguments held in the loop
variables. -/
theorem drain_redraws (v : LoopVars) (evs : List (Nat × RedrawEnv)) (a : Act)
    (ha : a ∈ (drain v evs).2) (hr : isRedraw a = true) :
    a = Act.redraw v.pixmap v.width v.height := by
  rcases first_close evs with ⟨pre, renv, post, rfl, hpre⟩ | hnone
  · rw [drain_closed v pre renv post hpre] at ha
    rcases List.mem_append.mp ha with ha | ha
    · exact (serviced_calls v pre).1 a ha hr
    · simp at ha
      rcases ha with rfl | rfl <;> simp [isRedraw] at hr
  · rw [drain_open v evs hnone] at ha
    rcases List.mem_append.mp ha with ha | ha
    · exact (serviced_calls v evs).1 a ha hr
    · simp at ha
      subst ha
      simp [isRedraw] at hr

theorem passTrace_catchUp (v : LoopVars) (evs : List (Nat × RedrawEnv)) (done : List Act) :
    passTrace (catchUp v evs done) =
      done ++ (drain v evs).2 ++
        (if (drain v evs).1 = true then cleanup v.pixmap else [Act.nanosleep]) := by
  unfold catchUp
  split_ifs <;> rfl

theorem catchUp_result (v : LoopVars) (evs : List (Nat × RedrawEnv)) (done : List Act) :
    catchUp v evs done = IterResult.next v (passTrace (catchUp v evs done)) ∨
    catchUp v evs done = IterResult.exit EXIT_SUCCESS (passTrace (catchUp v evs done)) := by
  unfold catchUp
  split_ifs
  · right; rfl
  · left; rfl

/-- If every `redraw` entered before catching up has the arguments held in the loop
variables, so has every `redraw` of the pass. -/
theorem catchUp_redraws (v : LoopVars) (evs : List (Nat × RedrawEnv)) (done : List Act)
    (hdone : ∀ a ∈ done, isRedraw a = true → a = Act.redraw v.pixmap v.width v.height)
    (a : Act) (ha : a ∈ passTrace (catchUp v evs done)) (hr : isRedraw a = true) :
    a = Act.redraw v.pixmap v.width v.height := by
  rw [passTrace_catchUp] at ha
  rcases List.mem_append.mp ha with ha | ha
  · rcases List.mem_append.mp ha with ha | ha
    · exact hdone a ha hr
    · exact drain_redraws v evs a ha hr
  · split_ifs at ha
    · have := (cleanup_calls v.pixmap a ha).1
      rw [hr] at this
      cases this
    · simp at ha
      subst ha
      simp [isRedraw] at hr

theorem filter_eq_nil_of_quiet (l : List Act)
    (h : ∀ a ∈ l, isRedraw a = false ∧ isEventCall a = false ∧ a ≠ Act.nanosleep) :
    l.filter isRedraw = [] ∧ l.filter isEventCall = [] ∧ Act.nanosleep ∉ l := by
  refine ⟨?_, ?_, ?_⟩
  · rw [List.filter_eq_nil_iff]
    intro a ha
    simp [(h a ha).1]
  · rw [List.filter_eq_nil_iff]
    intro a ha
    simp [(h a ha).2.1]
  · intro ha
    exact (h _ ha).2.2 rfl

theorem iteration_read_nothing (co : ChannelOffsets) (v : LoopVars) (it : IterEnv)
    (h : it.numRead = 0) :
    iteration co v it =
      some (IterResult.exit EXIT_FAILURE [Act.read, Act.cerr Diag.readNothing]) := by
  simp [iteration, h]

theorem iteration_would_block (co : ChannelOffsets) (v : LoopVars) (it : IterEnv)
    (h : it.numRead = -1) (he : it.errno = EAGAIN ∨ it.errno = EWOULDBLOCK) :
    iteration co v it = some (catchUp v it.events [Act.read]) := by
  unfold iteration
  rw [if_neg (by omega), if_pos h, if_pos he]

theorem iteration_read_error (co : ChannelOffsets) (v : LoopVars) (it : IterEnv)
    (h : it.numRead = -1) (he : ¬ (it.errno = EAGAIN ∨ it.errno = EWOULDBLOCK)) :
    iteration co v it =
      some (IterResult.exit EXIT_FAILURE [Act.read, Act.cerr Diag.readError]) := by
  unfold iteration
  rw [if_neg (by omega), if_pos h, if_neg he]

theorem iteration_reload_failed (co : ChannelOffsets) (v : LoopVars) (it : IterEnv)
    (r : LoadResult) (h0 : it.numRead ≠ 0) (h1 : it.numRead ≠ -1)
    (hload : load_image co it.reload v.pixmap v.width v.height = some r)
    (hst : r.status ≠ EXIT_SUCCESS) :
    iteration co v it = some (IterResult.exit r.status ([Act.read] ++ r.trace)) := by
  unfold iteration
  rw [if_neg h0, if_neg h1, hload]
  simp [hst]

theorem iteration_reload_ok (co : ChannelOffsets) (v : LoopVars) (it : IterEnv)
    (r : LoadResult) (h0 : it.numRead ≠ 0) (h1 : it.numRead ≠ -1)
    (hload : load_image co it.reload v.pixmap v.width v.height = some r)
    (hst : r.status = EXIT_SUCCESS) :
    iteration co v it =
      some (catchUp ⟨r.pixmap, r.width, r.height⟩ it.events
        ([Act.read] ++ r.trace ++ (redraw it.reloadRedraw r.pixmap r.width r.height).2)) := by
  unfold iteration
  rw [if_neg h0, if_neg h1, hload]
  simp [hst]

/-- Servicing enters `redraw` once for every expose event, in order. -/
theorem serviced_redraws (v : LoopVars) (evs : List (Nat × RedrawEnv)) :
    (serviced v evs).filter isRedraw =
      (evs.filter (fun e => decide (e.1 = Expose))).map
        (fun _ => Act.redraw v.pixmap v.width v.height) := by
  induction evs with
  | nil => simp [serviced]
  | cons e rest ih =>
    have hcons : serviced v (e :: rest) =
        ([Act.XPending, Act.XNextEvent e.1] ++
          (if e.1 = Expose then (redraw e.2 v.pixmap v.width v.height).2 else [])) ++
        serviced v rest := by
      simp [serviced, List.flatMap_cons]
    rw [hcons, List.filter_append, List.filter_append, ih]
    by_cases he : e.1 = Expose
    · simp [he, isRedraw, (redraw_calls e.2 v.pixmap v.width v.height).1]
    · simp [he, isRedraw]

/-- Catching up on a queue whose first close event comes after `pre`: the pass
leaves with `EXIT_SUCCESS`, having serviced `pre` and taken the close event; it takes
no other event and does not sleep (given that the calls `done` before it did
neither). -/
theorem catchUp_closed (v : LoopVars) (pre : List (Nat × RedrawEnv)) (renv : RedrawEnv)
    (post : List (Nat × RedrawEnv)) (done : List Act)
    (hpre : ∀ e ∈ pre, e.1 ≠ ClientMessage)
    (hdone : done.filter isEventCall = [] ∧ Act.nanosleep ∉ done) :
    catchUp v (pre ++ (ClientMessage, renv) :: post) done =
      IterResult.exit EXIT_SUCCESS
        (done ++ serviced v pre ++ [Act.XPending, Act.XNextEvent ClientMessage] ++
          cleanup v.pixmap) ∧
    (done ++ serviced v pre ++ [Act.XPending, Act.XNextEvent ClientMessage] ++
        cleanup v.pixmap).filter isEventCall =
      (pre ++ [(ClientMessage, renv)]).flatMap
        (fun e => [Act.XPending, Act.XNextEvent e.1]) ∧
    Act.nanosleep ∉
      done ++ serviced v pre ++ [Act.XPending, Act.XNextEvent ClientMessage] ++
        cleanup v.pixmap := by
  obtain ⟨-, hs2, hs3⟩ := serviced_calls v pre
  obtain ⟨-, hc2, hc3⟩ := filter_eq_nil_of_quiet _ (cleanup_calls v.pixmap)
  refine ⟨?_, ?_, ?_⟩
  · unfold catchUp
    rw [drain_closed v pre renv post hpre]
    simp [List.append_assoc]
  · simp only [List.filter_append, hdone.1, hs3, hc2, List.flatMap_append]
    simp [isEventCall]
  · intro h
    rcases List.mem_append.mp h with h | h
    · rcases List.mem_append.mp h with h | h
      · rcases List.mem_append.mp h with h | h
        · exact hdone.2 h
        · exact hs2 h
      · simp at h
    · exact hc3 h

/-! ## The loop and `main` -/

/-- A pass that leaves `main` with status 0 ended by taking a close event and running
the cleanup. -/
theorem iteration_exit_zero (co : ChannelOffsets) (v : LoopVars) (it : IterEnv) (t : List Act)
    (h : iteration co v it = some (IterResult.exit 0 t)) :
    ∃ pre pixmap, t = pre ++ [Act.XNextEvent ClientMessage] ++ cleanup pixmap := by
  have hcatch : ∀ v1 done, catchUp v1 it.events done = IterResult.exit 0 t →
      ∃ pre pixmap, t = pre ++ [Act.XNextEvent ClientMessage] ++ cleanup pixmap := by
    intro v1 done hc
    rcases first_close it.events with ⟨pre, renv, post, hev, hpre⟩ | hnone
    · unfold catchUp at hc
      rw [hev, drain_closed v1 pre renv post hpre] at hc
      simp only [if_true] at hc
      injection hc with _ ht
      exact ⟨done ++ serviced v1 pre ++ [Act.XPending], v1.pixmap, by rw [← ht]; simp⟩
    · unfold catchUp at hc
      rw [drain_open v1 it.events hnone] at hc
      simp at hc
  by_cases h0 : it.numRead = 0
  · rw [iteration_read_nothing co v it h0] at h
    simp [EXIT_FAILURE] at h
  by_cases h1 : it.numRead = -1
  · by_cases he : it.errno = EAGAIN ∨ it.errno = EWOULDBLOCK
    · rw [iteration_would_block co v it h1 he] at h
      injection h with h
      exact hcatch _ _ h
    · rw [iteration_read_error co v it h1 he] at h
      simp [EXIT_FAILURE] at h
  · cases hload : load_image co it.reload v.pixmap v.width v.height with
    | none => simp [iteration, h0, h1, hload] at h
    | some r =>
      by_cases hst : r.status = EXIT_SUCCESS
      · rw [iteration_reload_ok co v it r h0 h1 hload hst] at h
        injection h with h
        exact hcatch _ _ h
      · rw [iteration_reload_failed co v it r h0 h1 hload hst] at h
        injection h with h
        injection h with hs _
        exact absurd hs hst

theorem loop_cons (co : ChannelOffsets) (v : LoopVars) (it : IterEnv) (rest : List IterEnv)
    (done : List Act) :
    loop co v (it :: rest) done =
      (iteration co v it).bind fun r =>
        match r with
        | IterResult.next v1 t => loop co v1 rest (done ++ t)
        | IterResult.exit status t => some (Outcome.exited status (done ++ t)) := by
  rw [loop]

/-- A run of the loop that returns status 0 ended by taking a close event and running
the cleanup. -/
theorem loop_exit_zero (co : ChannelOffsets) (its : List IterEnv) :
    ∀ (v : LoopVars) (done tr : List Act),
      loop co v its done = some (Outcome.exited 0 tr) →
      ∃ pre pixmap, tr = pre ++ [Act.XNextEvent ClientMessage] ++ cleanup pixmap := by
  induction its with
  | nil => intro v done tr h; simp [loop] at h
  | cons it rest ih =>
    intro v done tr h
    unfold loop at h
    cases hit : iteration co v it with
    | none => simp [hit] at h
    | some res =>
      cases res with
      | next v1 t =>
        simp only [hit, Option.some_bind] at h
        exact ih v1 (done ++ t) tr h
      | exit status t =>
        simp only [hit, Option.some_bind] at h
        injection h with h
        injection h with hs ht
        subst hs
        obtain ⟨pre, pixmap, hpre⟩ := iteration_exit_zero co v it t hit
        exact ⟨done ++ pre, pixmap, by rw [← ht, hpre]; simp⟩

/-- Passes that all reach the closing brace can be run first. -/
theorem loop_append (co : ChannelOffsets) (pre more : List IterEnv) :
    ∀ (v0 : LoopVars) (done0 : List Act) (v : LoopVars) (done : List Act),
      loop co v0 pre done0 = some (Outcome.running v done) →
      loop co v0 (pre ++ more) done0 = loop co v more done := by
  induction pre with
  | nil =>
    intro v0 done0 v done h
    simp only [loop] at h
    injection h with h
    injection h with hv hd
    subst hv hd
    rfl
  | cons it rest ih =>
    intro v0 done0 v done h
    simp only [List.cons_append]
    rw [loop_cons] at h ⊢
    cases hit : iteration co v0 it with
    | none => simp [hit] at h
    | some res =>
      cases res with
      | next v1 t =>
        simp only [hit, Option.some_bind] at h ⊢
        exact ih v1 (done0 ++ t) v done h
      | exit status t =>
        simp [hit] at h

/-- When the start-up succeeds, `main` is the loop started on the loaded image. -/
theorem main_started (co : ChannelOffsets) (env : MainEnv) (r : LoadResult)
    (hargc : env.argc = 2) (hdpy : env.XOpenDisplay = true)
    (hload : load_image co env.load 0 0 0 = some r) (hst : r.status = EXIT_SUCCESS)
    (hinit : env.inotify_init1 ≠ -1) (hwd : env.inotify_add_watch ≠ -1) :
    main co env =
      loop co ⟨r.pixmap, r.width, r.height⟩ env.iterations
        (startup ++ r.trace ++ [Act.inotify_init1, Act.inotify_add_watch]) := by
  simp [main, hargc, hdpy, hload, hst, hinit, hwd]

/-- The ways `main` can go, by what the start-up meets. -/
theorem main_cases (co : ChannelOffsets) (env : MainEnv) :
    (∃ tr, main co env = some (Outcome.exited EXIT_FAILURE tr)) ∨
    main co env = none ∨
    (∃ r, load_image co env.load 0 0 0 = some r ∧ r.status ≠ EXIT_SUCCESS ∧
      main co env = some (Outcome.exited r.status (startup ++ r.trace))) ∨
    ∃ r, env.argc = 2 ∧ env.XOpenDisplay = true ∧ load_image co env.load 0 0 0 = some r ∧
      r.status = EXIT_SUCCESS ∧ env.inotify_init1 ≠ -1 ∧ env.inotify_add_watch ≠ -1 := by
  by_cases hargc : env.argc = 2
  swap
  · exact Or.inl ⟨[Act.cerr Diag.usage], by simp [main, hargc]⟩
  by_cases hdpy : env.XOpenDisplay = true
  swap
  · exact Or.inl ⟨[Act.XOpenDisplay, Act.cerr Diag.cannotOpenDisplay],
      by simp [main, hargc, hdpy]⟩
  cases hload : load_image co env.load 0 0 0 with
  | none => exact Or.inr (Or.inl (by simp [main, hargc, hdpy, hload]))
  | some r =>
    by_cases hst : r.status = EXIT_SUCCESS
    swap
    · exact Or.inr (Or.inr (Or.inl ⟨r, rfl, hst, by simp [main, hargc, hdpy, hload, hst]⟩))
    by_cases hinit : env.inotify_init1 = -1
    · exact Or.inl ⟨startup ++ r.trace ++ [Act.inotify_init1, Act.cerr Diag.inotifyInitFailed],
        by simp [main, hargc, hdpy, hload, hst, hinit]⟩
    by_cases hwd : env.inotify_add_watch = -1
    · exact Or.inl ⟨startup ++ r.trace ++
          [Act.inotify_init1, Act.inotify_add_watch, Act.cerr Diag.addWatchFailed],
        by simp [main, hargc, hdpy, hload, hst, hinit, hwd]⟩
    exact Or.inr (Or.inr (Or.inr ⟨r, hargc, hdpy, rfl, hst, hinit, hwd⟩))

/-- A run of `main` that is still in its loop got through the start-up. -/
theorem main_running (co : ChannelOffsets) (env : MainEnv) (v : LoopVars) (done : List Act)
    (h : main co env = some (Outcome.running v done)) :
    ∃ r, env.argc = 2 ∧ env.XOpenDisplay = true ∧ load_image co env.load 0 0 0 = some r ∧
      r.status = EXIT_SUCCESS ∧ env.inotify_init1 ≠ -1 ∧ env.inotify_add_watch ≠ -1 := by
  rcases main_cases co env with ⟨tr, h1⟩ | h1 | ⟨r, -, -, h1⟩ | h1
  · rw [h1] at h; simp at h
  · rw [h1] at h; simp at h
  · rw [h1] at h; simp at h
  · exact h1

/-- If `main` is still in its loop after the passes `pre`, then with further passes
`more` it goes on as the loop does from the variables and trace reached. -/
theorem main_extend (co : ChannelOffsets) (env : MainEnv) (pre more : List IterEnv)
    (v : LoopVars) (done : List Act)
    (h : main co { env with iterations := pre } = some (Outcome.running v done)) :
    main co { env with iterations := pre ++ more } = loop co v more done := by
  obtain ⟨r, hargc, hdpy, hload, hst, hinit, hwd⟩ := main_running co _ v done h
  rw [main_started co _ r hargc hdpy hload hst hinit hwd] at h
  rw [main_started co { env with iterations := pre ++ more } r hargc hdpy hload hst hinit hwd]
  exact loop_append co pre more _ _ v done h

/-! ## Pixel normalisation (claims C1 to C4) -/

/-- C1.  For a 32-bit source image within the `int` range and a pixel of it at
column `x` of scan line `row`, with source channels `(b, g, r, a)`, `load_image`
succeeds and the output pixel holds the bytes `b*a/255, g*a/255, r*a/255, 255` in
B, G, R, A order, with truncating division; each quotient is below 256, so it is
stored without wrap-around; when `a = 0` the bytes are `0, 0, 0, 255`. -/
theorem load_image_depth32_premultiplies (co : ChannelOffsets) (env : LibEnv)
    (pixmap width height : Nat) (input : FIBITMAP) (x row : Nat)
    (henv : delivers env input) (hbpp : input.bpp = 32)
    (hfit : input.width * input.height * 4 ≤ INT_MAX)
    (hx : x < input.width) (hrow : row < input.height) :
    ∃ r image32, load_image co env pixmap width height = some r ∧
      r.status = EXIT_SUCCESS ∧ r.image32 = some image32 ∧
      pixelAt image32 input.width x (input.height - 1 - row) =
        [some ((input.scanline row (x * 4 + co.FI_RGBA_BLUE)).val *
            (input.scanline row (x * 4 + co.FI_RGBA_ALPHA)).val / 255),
          some ((input.scanline row (x * 4 + co.FI_RGBA_GREEN)).val *
            (input.scanline row (x * 4 + co.FI_RGBA_ALPHA)).val / 255),
          some ((input.scanline row (x * 4 + co.FI_RGBA_RED)).val *
            (input.scanline row (x * 4 + co.FI_RGBA_ALPHA)).val / 255),
          some 255] ∧
      (input.scanline row (x * 4 + co.FI_RGBA_BLUE)).val *
        (input.scanline row (x * 4 + co.FI_RGBA_ALPHA)).val / 255 < 256 ∧
      (input.scanline row (x * 4 + co.FI_RGBA_GREEN)).val *
        (input.scanline row (x * 4 + co.FI_RGBA_ALPHA)).val / 255 < 256 ∧
      (input.scanline row (x * 4 + co.FI_RGBA_RED)).val *
        (input.scanline row (x * 4 + co.FI_RGBA_ALPHA)).val / 255 < 256 ∧
      ((input.scanline row (x * 4 + co.FI_RGBA_ALPHA)).val = 0 →
        pixelAt image32 input.width x (input.height - 1 - row) =
          [some 0, some 0, some 0, some 255]) := by
  obtain ⟨b, hb, -, hv⟩ := load_image_supported_pixels co env pixmap width height input henv
    (by omega) (inIntRange_of_pixel input x row hx hrow hfit)
  have hp := hv (input.height - 1 - row) x (by omega) hx
  rw [flip_row _ _ hrow] at hp
  simp only [normalise_spec, hbpp] at hp
  norm_num at hp
  have hlt : ∀ v a : Fin 256, v.val * a.val / 255 < 256 := by
    intro v a
    have h : v.val * a.val ≤ 255 * 255 := Nat.mul_le_mul (by omega) (by omega)
    omega
  refine ⟨_, b, hb, rfl, rfl, hp, hlt _ _, hlt _ _, hlt _ _, ?_⟩
  intro ha
  rw [hp, ha]
  simp

/-- Witness for C1: pixel 1 of scan line 0 of a 2 by 2 sample image. -/
theorem load_image_depth32_premultiplies_witness :
    ∃ r image32,
      load_image sampleOffsets (sampleEnv true (sampleBitmap 32 2 2)) 0 0 0 = some r ∧
      r.status = EXIT_SUCCESS ∧ r.image32 = some image32 ∧
      pixelAt image32 2 1 1 = [some 13, some 16, some 19, some 255] := by
  obtain ⟨r, b, h1, h2, h3, h4, _⟩ :=
    load_image_depth32_premultiplies sampleOffsets (sampleEnv true (sampleBitmap 32 2 2))
      0 0 0 (sampleBitmap 32 2 2) 1 0 ⟨by decide, rfl, rfl⟩ rfl (by decide) (by decide)
      (by decide)
  exact ⟨r, b, h1, h2, h3, h4⟩

/-- C2.  For a 24-bit source image within the `int` range and a pixel of it at
column `x` of scan line `row`, `load_image` succeeds and the output pixel holds the
source B, G, R bytes unchanged, followed by the alpha byte 255. -/
theorem load_image_depth24_copies (co : ChannelOffsets) (env : LibEnv)
    (pixmap width height : Nat) (input : FIBITMAP) (x row : Nat)
    (henv : delivers env input) (hbpp : input.bpp = 24)
    (hfit : input.width * input.height * 4 ≤ INT_MAX)
    (hx : x < input.width) (hrow : row < input.height) :
    ∃ r image32, load_image co env pixmap width height = some r ∧
      r.status = EXIT_SUCCESS ∧ r.image32 = some image32 ∧
      pixelAt image32 input.width x (input.height - 1 - row) =
        [some (input.scanline row (x * 3 + co.FI_RGBA_BLUE)).val,
          some (input.scanline row (x * 3 + co.FI_RGBA_GREEN)).val,
          some (input.scanline row (x * 3 + co.FI_RGBA_RED)).val,
          some 255] := by
  obtain ⟨b, hb, -, hv⟩ := load_image_supported_pixels co env pixmap width height input henv
    (by omega) (inIntRange_of_pixel input x row hx hrow hfit)
  have hp := hv (input.height - 1 - row) x (by omega) hx
  rw [flip_row _ _ hrow] at hp
  simp only [normalise_spec, hbpp] at hp
  norm_num at hp
  exact ⟨_, b, hb, rfl, rfl, hp⟩

/-- Witness for C2: pixel 1 of scan line 0 of a 2 by 2 sample image. -/
theorem load_image_depth24_copies_witness :
    ∃ r image32,
      load_image sampleOffsets (sampleEnv true (sampleBitmap 24 2 2)) 0 0 0 = some r ∧
      r.status = EXIT_SUCCESS ∧ r.image32 = some image32 ∧
      pixelAt image32 2 1 1 = [some 35, some 45, some 55, some 255] :=
  load_image_depth24_copies sampleOffsets (sampleEnv true (sampleBitmap 24 2 2))
    0 0 0 (sampleBitmap 24 2 2) 1 0 ⟨by decide, rfl, rfl⟩ rfl (by decide) (by decide)
    (by decide)

/-- C3.  For an 8-bit source image within the `int` range and a pixel of it at
column `x` of scan line `row`, with source value `V`, `load_image` succeeds and the
output pixel holds the bytes `V, V, V, 255`. -/
theorem load_image_depth8_replicates (co : ChannelOffsets) (env : LibEnv)
    (pixmap width height : Nat) (input : FIBITMAP) (x row : Nat)
    (henv : delivers env input) (hbpp : input.bpp = 8)
    (hfit : input.width * input.height * 4 ≤ INT_MAX)
    (hx : x < input.width) (hrow : row < input.height) :
    ∃ r image32, load_image co env pixmap width height = some r ∧
      r.status = EXIT_SUCCESS ∧ r.image32 = some image32 ∧
      pixelAt image32 input.width x (input.height - 1 - row) =
        [some (input.scanline row x).val, some (input.scanline row x).val,
          some (input.scanline row x).val, some 255] := by
  obtain ⟨b, hb, -, hv⟩ := load_image_supported_pixels co env pixmap width height input henv
    (by omega) (inIntRange_of_pixel input x row hx hrow hfit)
  have hp := hv (input.height - 1 - row) x (by omega) hx
  rw [flip_row _ _ hrow] at hp
  simp only [normalise_spec, hbpp] at hp
  norm_num at hp
  exact ⟨_, b, hb, rfl, rfl, hp⟩

/-- Witness for C3: pixel 1 of scan line 0 of a 2 by 2 sample image. -/
theorem load_image_depth8_replicates_witness :
    ∃ r image32,
      load_image sampleOffsets (sampleEnv true (sampleBitmap 8 2 2)) 0 0 0 = some r ∧
      r.status = EXIT_SUCCESS ∧ r.image32 = some image32 ∧
      pixelAt image32 2 1 1 = [some 15, some 15, some 15, some 255] :=
  load_image_depth8_replicates sampleOffsets (sampleEnv true (sampleBitmap 8 2 2))
    0 0 0 (sampleBitmap 8 2 2) 1 0 ⟨by decide, rfl, rfl⟩ rfl (by decide) (by decide)
    (by decide)

/-- C4.  For an image of a supported depth (8, 24 or 32) within the `int` range,
`load_image` succeeds and every output pixel `(x, y)` is the normalisation of pixel
`x` of source scan line `height - 1 - y`: columns keep their order and rows are
flipped, so output row 0 comes from the last source scan line and the last output
row from source scan line 0. -/
theorem load_image_flips_rows (co : ChannelOffsets) (env : LibEnv)
    (pixmap width height : Nat) (input : FIBITMAP) (henv : delivers env input)
    (hd : input.bpp = 8 ∨ input.bpp = 24 ∨ input.bpp = 32) (hfit : inIntRange input) :
    ∃ r image32, load_image co env pixmap width height = some r ∧
      r.status = EXIT_SUCCESS ∧ r.image32 = some image32 ∧
      (∀ y x, y < input.height → x < input.width →
        pixelAt image32 input.width x y =
          (normalise_spec co input.bpp (input.scanline (input.height - 1 - y)) x).map some) ∧
      (∀ x, 0 < input.height → x < input.width →
        pixelAt image32 input.width x 0 =
          (normalise_spec co input.bpp (input.scanline (input.height - 1)) x).map some) ∧
      (∀ x, 0 < input.height → x < input.width →
        pixelAt image32 input.width x (input.height - 1) =
          (normalise_spec co input.bpp (input.scanline 0) x).map some) := by
  obtain ⟨b, hb, -, hv⟩ :=
    load_image_supported_pixels co env pixmap width height input henv hd hfit
  have hall : ∀ y x, y < input.height → x < input.width →
      pixelAt b input.width x y =
        (normalise_spec co input.bpp (input.scanline (input.height - 1 - y)) x).map some := by
    intro y x hy hx
    rw [hv y x hy hx, Nat.sub_right_comm]
  refine ⟨_, b, hb, rfl, rfl, hall, ?_, ?_⟩
  · intro x hh hx
    simpa using hall 0 x hh hx
  · intro x hh hx
    have h := hall (input.height - 1) x (by omega) hx
    rwa [show input.height - 1 - (input.height - 1) = 0 by omega] at h

/-- Witness for C4: a 2 by 2 sample image of depth 24; the first output row is the
last source scan line. -/
theorem load_image_flips_rows_witness :
    inIntRange (sampleBitmap 24 2 2) ∧
    ∃ r image32,
      load_image sampleOffsets (sampleEnv true (sampleBitmap 24 2 2)) 0 0 0 = some r ∧
      r.image32 = some image32 ∧
      pixelAt image32 2 0 0 = [some 105, some 115, some 125, some 255] ∧
      pixelAt image32 2 1 0 = [some 135, some 145, some 155, some 255] := by
  have hfit : inIntRange (sampleBitmap 24 2 2) := ⟨by decide, by decide, by decide⟩
  obtain ⟨r, b, h1, -, h3, -, h5, -⟩ :=
    load_image_flips_rows sampleOffsets (sampleEnv true (sampleBitmap 24 2 2)) 0 0 0
      (sampleBitmap 24 2 2) ⟨by decide, rfl, rfl⟩ (Or.inr (Or.inl rfl)) hfit
  exact ⟨hfit, r, b, h1, h3, h5 0 (by decide) (by decide), h5 1 (by decide) (by decide)⟩

/-! ## Rejected depths and the size of the block (claims C5 and C6) -/

/-- C5, evaluated on a 1 by 1 image of depth 16 while the caller holds pixmap 5:
`load_image` returns `EXIT_FAILURE`, hands no block on and leaves the pixmap alone,
but `malloc` has been called (for 4 bytes) before the depth is looked at, and
neither the block nor the loaded image is released. -/
theorem load_image_depth16_allocates :
    load_image sampleOffsets (sampleEnv true (sampleBitmap 16 1 1)) 5 0 0 =
      some ⟨EXIT_FAILURE, 5, 1, 1, none,
        [Act.FreeImage_GetFileType, Act.FreeImage_FIFSupportsReading 2,
          Act.FreeImage_Load 2, Act.malloc 4, Act.cerr (Diag.unsupportedDepth 16)]⟩ := by
  decide

/-- For every raster image within the `int` range whose depth is not 8, 24 or 32,
`load_image` returns `EXIT_FAILURE` with the pixmap unchanged and no block handed on;
after the calls that open the file come the `malloc` of `width * height * 4` bytes
and the diagnostic, and nothing is released. -/
theorem load_image_unsupported_depth (co : ChannelOffsets) (env : LibEnv)
    (pixmap width height : Nat) (input : FIBITMAP) (henv : delivers env input)
    (hd : input.bpp ≠ 8 ∧ input.bpp ≠ 24 ∧ input.bpp ≠ 32) (hfit : inIntRange input) :
    load_image co env pixmap width height =
      some ⟨EXIT_FAILURE, pixmap, input.width, input.height, none,
        openTrace env ++ [Act.malloc (input.width * input.height * 4),
          Act.cerr (Diag.unsupportedDepth input.bpp)]⟩ := by
  obtain ⟨hfif, hload, htype⟩ := henv
  obtain ⟨hw, hh, hwh⟩ := hfit
  obtain ⟨h8, h24, h32⟩ := hd
  have hwh2 : input.width * input.height ≤ INT_MAX := by omega
  simp [load_image, hfif, hload, htype, toInt, hw, hh, hwh, hwh2, pad_bytes, bitmap_pad,
    switchDepth, h8, h24, h32, openTrace]

/-- C6, evaluated on an 8-bit image of 32768 by 32768 pixels: the byte size
`width * height * pad_bytes` of the block does not fit an `int`, so the size handed
to `malloc` is not defined and `load_image` has no defined result. -/
theorem load_image_size_overflows :
    delivers (sampleEnv true hugeBitmap) hugeBitmap ∧ hugeBitmap.bpp = 8 ∧
    INT_MAX < hugeBitmap.width * hugeBitmap.height * pad_bytes ∧
    toInt (hugeBitmap.width * hugeBitmap.height * pad_bytes) = none ∧
    load_image sampleOffsets (sampleEnv true hugeBitmap) 0 0 0 = none := by
  refine ⟨⟨by decide, rfl, rfl⟩, rfl, by decide, by decide, by decide⟩

/-- Within the `int` range the block is as C6 describes it: for an image of a
supported depth `load_image` asks `malloc` for `width * height * 4` bytes, the block
it hands on has that length, the four offsets of every pixel lie inside it, and every
byte of it has been stored to; a 1 by 1 image gives a block of 4 bytes. -/
theorem load_image_block_in_range (co : ChannelOffsets) (env : LibEnv)
    (pixmap width height : Nat) (input : FIBITMAP) (henv : delivers env input)
    (hd : input.bpp = 8 ∨ input.bpp = 24 ∨ input.bpp = 32) (hfit : inIntRange input) :
    ∃ r image32, load_image co env pixmap width height = some r ∧
      r.status = EXIT_SUCCESS ∧ r.image32 = some image32 ∧
      Act.malloc (input.width * input.height * 4) ∈ r.trace ∧
      image32.length = input.width * input.height * 4 ∧
      (∀ x y c, x < input.width → y < input.height → c < 4 →
        (y * input.width + x) * 4 + c < input.width * input.height * 4) ∧
      (∀ i, i < image32.length → ∃ v, image32[i]? = some (some v)) ∧
      (input.width = 1 → input.height = 1 → image32.length = 4) := by
  obtain ⟨hfif, hload, htype⟩ := henv
  obtain ⟨b, hb, hl, hv⟩ :=
    load_image_supported co env pixmap width height input hfif hload htype hd hfit
  refine ⟨_, b, hb, rfl, rfl, by simp [decodeTrace], hl, ?_, ?_, ?_⟩
  · intro x y c hx hy hc
    exact offset_in_block _ _ x y c hx hy hc
  · intro i hi
    obtain ⟨y, x, c, hy, hx, hc, rfl⟩ := offset_split input.width input.height i (hl ▸ hi)
    exact ⟨_, hv y x c hy hx hc⟩
  · intro h1 h2
    rw [hl, h1, h2]

/-- A sample for `load_image_block_in_range`: a 1 by 1 image of depth 32. -/
theorem load_image_block_in_range_witness :
    ∃ r image32,
      load_image sampleOffsets (sampleEnv true (sampleBitmap 32 1 1)) 0 0 0 = some r ∧
      r.image32 = some image32 ∧ image32.length = 4 := by
  obtain ⟨r, b, h1, -, h3, -, -, -, -, h8⟩ :=
    load_image_block_in_range sampleOffsets (sampleEnv true (sampleBitmap 32 1 1)) 0 0 0
      (sampleBitmap 32 1 1) ⟨by decide, rfl, rfl⟩ (Or.inr (Or.inr rfl))
      ⟨by decide, by decide, by decide⟩
  exact ⟨r, b, h1, h3, h8 rfl rfl⟩

/-! ## Formats the library cannot read (claim C7) -/

/-- C7, evaluated on a file whose format the library reports as not readable while
`FreeImage_Load` still returns a 1 by 1 image of depth 8: `load_image` writes the
diagnostic, goes on to load and convert the image, and returns `EXIT_SUCCESS`. -/
theorem load_image_unreadable_format_accepted :
    (sampleEnv false (sampleBitmap 8 1 1)).FreeImage_FIFSupportsReading
      (fileFormat (sampleEnv false (sampleBitmap 8 1 1))) = false ∧
    load_image sampleOffsets (sampleEnv false (sampleBitmap 8 1 1)) 0 0 0 =
      some ⟨EXIT_SUCCESS, 7, 1, 1, some [some 5, some 5, some 5, some 255],
        [Act.FreeImage_GetFileType, Act.FreeImage_FIFSupportsReading 2,
          Act.cerr Diag.couldntReadFormat, Act.FreeImage_Load 2, Act.malloc 4,
          Act.FreeImage_Unload, Act.XCreateImage 1 1, Act.XCreatePixmap 1 1,
          Act.XPutImage 7 1 1, Act.XDestroyImage]⟩ := by
  refine ⟨rfl, by decide⟩

/-! ## The event loop (claims C8 to C10) -/

/-- C8.  In a pass of the loop in which `read` returns a positive count and the
decode succeeds, the calls are, in this order: `read`; the calls of `load_image`,
which end with building the new pixmap and contain no `redraw` and no event-queue
call; one call of `redraw`, with the new pixmap and the width and height of the
newly loaded image; then the servicing of the window events.  The pass enters
`redraw` exactly once before the first event-queue call, every `redraw` of the pass is
entered with the new pixmap, width and height, the loop variables carry them on, and
so does every `redraw` of a later pass that does not reload. -/
theorem reload_redraws_once_with_new_size (co : ChannelOffsets) (v : LoopVars) (it : IterEnv)
    (r : LoadResult) (hread : 0 < it.numRead)
    (hload : load_image co it.reload v.pixmap v.width v.height = some r)
    (hok : r.status = EXIT_SUCCESS) :
    ∃ input res pre tail,
      delivers it.reload input ∧ r.width = input.width ∧ r.height = input.height ∧
      r.trace = pre ++ [Act.XCreatePixmap input.width input.height,
        Act.XPutImage r.pixmap input.width input.height, Act.XDestroyImage] ∧
      iteration co v it = some res ∧
      passTrace res =
        [Act.read] ++ r.trace ++
          (redraw it.reloadRedraw r.pixmap input.width input.height).2 ++
          (drain ⟨r.pixmap, input.width, input.height⟩ it.events).2 ++ tail ∧
      ([Act.read] ++ r.trace).filter isRedraw = [] ∧
      ([Act.read] ++ r.trace).filter isEventCall = [] ∧
      (redraw it.reloadRedraw r.pixmap input.width input.height).2.filter isRedraw =
        [Act.redraw r.pixmap input.width input.height] ∧
      (redraw it.reloadRedraw r.pixmap input.width input.height).2.filter isEventCall = [] ∧
      (drain ⟨r.pixmap, input.width, input.height⟩ it.events).2.head? = some Act.XPending ∧
      (∀ a ∈ passTrace res, isRedraw a = true →
        a = Act.redraw r.pixmap input.width input.height) ∧
      (res = IterResult.next ⟨r.pixmap, input.width, input.height⟩ (passTrace res) ∨
        res = IterResult.exit EXIT_SUCCESS (passTrace res)) ∧
      (∀ it2 res2, it2.numRead = -1 →
        iteration co ⟨r.pixmap, input.width, input.height⟩ it2 = some res2 →
        ∀ a ∈ passTrace res2, isRedraw a = true →
          a = Act.redraw r.pixmap input.width input.height) := by
  rcases load_image_cases co it.reload v.pixmap v.width v.height r hload with
    ⟨hfail, -⟩ | ⟨input, b, henv, -, -, rfl⟩
  · rw [hok] at hfail
    cases hfail
  have hquiet := filter_eq_nil_of_quiet _
    (decodeTrace_quiet it.reload v.pixmap input.width input.height)
  obtain ⟨hR1, hR2, -, -⟩ := redraw_calls it.reloadRedraw it.reload.XCreatePixmap
    input.width input.height
  have hit : iteration co v it =
      some (catchUp ⟨it.reload.XCreatePixmap, input.width, input.height⟩ it.events
        ([Act.read] ++ decodeTrace it.reload v.pixmap input.width input.height ++
          (redraw it.reloadRedraw it.reload.XCreatePixmap input.width input.height).2)) := by
    exact iteration_reload_ok co v it _ (by omega) (by omega) hload rfl
  have hdone : ∀ a ∈ [Act.read] ++ decodeTrace it.reload v.pixmap input.width input.height ++
      (redraw it.reloadRedraw it.reload.XCreatePixmap input.width input.height).2,
      isRedraw a = true → a = Act.redraw it.reload.XCreatePixmap input.width input.height := by
    intro a ha hr
    rcases List.mem_append.mp ha with ha | ha
    · rcases List.mem_append.mp ha with ha | ha
      · simp at ha
        subst ha
        simp [isRedraw] at hr
      · rw [(decodeTrace_quiet _ _ _ _ a ha).1] at hr
        cases hr
    · have := mem_filter_isRedraw _ a ha hr
      rw [hR1] at this
      simpa using this
  refine ⟨input, _,
    openTrace it.reload ++
      [Act.malloc (input.width * input.height * 4), Act.FreeImage_Unload,
        Act.XCreateImage input.width input.height] ++
      (if v.pixmap ≠ 0 then [Act.XFreePixmap v.pixmap] else []),
    _, henv, rfl, rfl, rfl, hit, passTrace_catchUp _ _ _, ?_, ?_, hR1, hR2,
    drain_head _ _, ?_, catchUp_result _ _ _, ?_⟩
  · simp [List.filter_append, hquiet.1, isRedraw]
  · simp [List.filter_append, hquiet.2.1, isEventCall]
  · exact fun a ha hr => catchUp_redraws _ _ _ hdone a ha hr
  · intro it2 res2 hn hres a ha hr
    by_cases he : it2.errno = EAGAIN ∨ it2.errno = EWOULDBLOCK
    · rw [iteration_would_block co _ it2 hn he] at hres
      injection hres with hres
      subst hres
      refine catchUp_redraws _ _ _ ?_ a ha hr
      intro a1 h1 hr1
      simp at h1
      subst h1
      simp [isRedraw] at hr1
    · rw [iteration_read_error co _ it2 hn he] at hres
      injection hres with hres
      subst hres
      simp [passTrace] at ha
      rcases ha with rfl | rfl <;> simp [isRedraw] at hr

/-- Witness for C8: the caller holds pixmap 3 of a 1 by 1 image, the file now holds
a 2 by 1 image; every `redraw` of the pass is entered with the new pixmap 7 and the
size 2 by 1. -/
theorem reload_redraws_once_with_new_size_witness :
    (0 : Int) < sampleReloadPass.numRead ∧
    load_image sampleOffsets sampleReloadPass.reload 3 1 1 = some sampleReloaded ∧
    ∃ res, iteration sampleOffsets ⟨3, 1, 1⟩ sampleReloadPass = some res ∧
      ∀ a ∈ passTrace res, isRedraw a = true → a = Act.redraw 7 2 1 := by
  have hload : load_image sampleOffsets sampleReloadPass.reload 3 1 1 = some sampleReloaded := by
    decide
  obtain ⟨input, res, pre, tail, -, hw, hh, -, hit, -, -, -, -, -, -, hall, -⟩ :=
    reload_redraws_once_with_new_size sampleOffsets ⟨3, 1, 1⟩ sampleReloadPass sampleReloaded
      (by decide) hload rfl
  refine ⟨by decide, hload, res, hit, ?_⟩
  intro a ha hr
  have h := hall a ha hr
  rw [← hw, ← hh] at h
  exact h

/-- C9 as stated fails when the pass ends at the `read`: with a close event pending
and `read` returning zero bytes, the pass leaves `main` with `EXIT_FAILURE` before any
window event is taken. -/
theorem close_event_after_empty_read :
    ClientMessage ∈ (closePass 0).events.map Prod.fst ∧
    iteration sampleOffsets ⟨7, 2, 2⟩ (closePass 0) =
      some (IterResult.exit EXIT_FAILURE [Act.read, Act.cerr Diag.readNothing]) ∧
    EXIT_FAILURE ≠ 0 := by
  refine ⟨by decide, by decide, by decide⟩

/-- C9, amended.  In a pass whose `read` reports that it would block, or delivers
bytes followed by a successful reload, and whose queue of pending window events
contains a close event, the pass leaves `main` with status 0: after the calls of the
read and reload (`done`) it services the events before the first close event, entering
`redraw` once for each expose event among them, takes the close event, and runs the
cleanup.  The events taken from the queue are exactly those up to the close event, and
the pass does not sleep. -/
theorem close_event_shuts_down (co : ChannelOffsets) (v : LoopVars) (it : IterEnv)
    (hclose : ClientMessage ∈ it.events.map Prod.fst)
    (hread : (it.numRead = -1 ∧ (it.errno = EAGAIN ∨ it.errno = EWOULDBLOCK)) ∨
      (it.numRead ≠ 0 ∧ it.numRead ≠ -1 ∧
        ∃ r, load_image co it.reload v.pixmap v.width v.height = some r ∧
          r.status = EXIT_SUCCESS)) :
    ∃ pre renv post v1 done,
      it.events = pre ++ (ClientMessage, renv) :: post ∧
      (∀ e ∈ pre, e.1 ≠ ClientMessage) ∧
      iteration co v it =
        some (IterResult.exit EXIT_SUCCESS
          (done ++ serviced v1 pre ++ [Act.XPending, Act.XNextEvent ClientMessage] ++
            cleanup v1.pixmap)) ∧
      EXIT_SUCCESS = 0 ∧
      (serviced v1 pre).filter isRedraw =
        (pre.filter (fun e => decide (e.1 = Expose))).map
          (fun _ => Act.redraw v1.pixmap v1.width v1.height) ∧
      (done ++ serviced v1 pre ++ [Act.XPending, Act.XNextEvent ClientMessage] ++
          cleanup v1.pixmap).filter isEventCall =
        (pre ++ [(ClientMessage, renv)]).flatMap
          (fun e => [Act.XPending, Act.XNextEvent e.1]) ∧
      Act.nanosleep ∉
        done ++ serviced v1 pre ++ [Act.XPending, Act.XNextEvent ClientMessage] ++
          cleanup v1.pixmap := by
  rcases first_close it.events with ⟨pre, renv, post, hev, hpre⟩ | hnone
  · rcases hread with ⟨hn, he⟩ | ⟨h0, h1, r, hload, hok⟩
    · obtain ⟨hc1, hc2, hc3⟩ := catchUp_closed v pre renv post [Act.read] hpre
        ⟨by simp [isEventCall], by simp⟩
      refine ⟨pre, renv, post, v, [Act.read], hev, hpre, ?_, rfl, serviced_redraws v pre,
        hc2, hc3⟩
      rw [iteration_would_block co v it hn he, hev, hc1]
    · have hquiet : ([Act.read] ++ r.trace ++
            (redraw it.reloadRedraw r.pixmap r.width r.height).2).filter isEventCall = [] ∧
          Act.nanosleep ∉ [Act.read] ++ r.trace ++
            (redraw it.reloadRedraw r.pixmap r.width r.height).2 := by
        obtain ⟨-, hR2, -, hR4⟩ := redraw_calls it.reloadRedraw r.pixmap r.width r.height
        rcases load_image_cases co it.reload v.pixmap v.width v.height r hload with
          ⟨hfail, -⟩ | ⟨input, b, -, -, -, rfl⟩
        · rw [hok] at hfail
          cases hfail
        · obtain ⟨-, hq2, hq3⟩ := filter_eq_nil_of_quiet _
            (decodeTrace_quiet it.reload v.pixmap input.width input.height)
          refine ⟨?_, ?_⟩
          · simp only [List.filter_append, hq2, hR2]
            simp [isEventCall]
          · intro h
            rcases List.mem_append.mp h with h | h
            · rcases List.mem_append.mp h with h | h
              · simp at h
              · exact hq3 h
            · exact hR4 h
      obtain ⟨hc1, hc2, hc3⟩ := catchUp_closed ⟨r.pixmap, r.width, r.height⟩ pre renv post
        _ hpre hquiet
      refine ⟨pre, renv, post, ⟨r.pixmap, r.width, r.height⟩, _, hev, hpre, ?_, rfl,
        serviced_redraws _ pre, hc2, hc3⟩
      rw [iteration_reload_ok co v it r h0 h1 hload hok, hev, hc1]
  · exfalso
    obtain ⟨e, he, hcm⟩ := List.mem_map.mp hclose
    exact hnone e he hcm

/-- Witness for C9 (amended): `read` would block while an expose event, a close event
and another expose event are pending; the pass services the first expose event, takes
the close event and leaves with status 0. -/
theorem close_event_shuts_down_witness :
    ClientMessage ∈ (closePass (-1)).events.map Prod.fst ∧
    iteration sampleOffsets ⟨7, 2, 2⟩ (closePass (-1)) =
      some (IterResult.exit 0
        [Act.read, Act.XPending, Act.XNextEvent Expose, Act.redraw 7 2 2,
          Act.XGetWindowAttributes, Act.XAllocNamedColor, Act.XSetForeground,
          Act.XFillRectangle 100 100, Act.XCopyArea 7 2 2, Act.XPending,
          Act.XNextEvent ClientMessage, Act.XFreePixmap 7, Act.XFreeGC, Act.XDestroyWindow,
          Act.XCloseDisplay]) := by
  have hclose : ClientMessage ∈ (closePass (-1)).events.map Prod.fst := by decide
  obtain ⟨pre, renv, post, v1, done, -, -, hit, -⟩ :=
    close_event_shuts_down sampleOffsets ⟨7, 2, 2⟩ (closePass (-1)) hclose
      (Or.inl ⟨rfl, Or.inl rfl⟩)
  exact ⟨hclose, by decide⟩

/-- C10.  Exit status of `main`, for every environment: (1) `main` returns 0 only at
the end of a trace that takes a close event and then runs the cleanup;
(2) `EXIT_FAILURE` is not 0, and `main` returns it when the argument count is not 2,
when the display cannot be opened, when `inotify_init1` fails and when
`inotify_add_watch` fails; (3) when the first `load_image` fails, `main` returns the
status of `load_image`, which is not 0; (4) when `main` is still in its loop after
the passes `pre` and the next pass reads zero bytes, or fails to read with an error
other than would-block, `main` returns `EXIT_FAILURE`; when the next pass reloads and
`load_image` fails, `main` returns the status of `load_image`, which is not 0, right
after the calls of `load_image`, and no `redraw` is entered in that pass. -/
theorem main_exit_status (co : ChannelOffsets) :
    (∀ env tr, main co env = some (Outcome.exited 0 tr) →
      ∃ pre pixmap, tr = pre ++ [Act.XNextEvent ClientMessage] ++ cleanup pixmap) ∧
    EXIT_FAILURE ≠ 0 ∧
    (∀ env : MainEnv, env.argc ≠ 2 →
      main co env = some (Outcome.exited EXIT_FAILURE [Act.cerr Diag.usage])) ∧
    (∀ env : MainEnv, env.argc = 2 → env.XOpenDisplay = false →
      main co env =
        some (Outcome.exited EXIT_FAILURE [Act.XOpenDisplay, Act.cerr Diag.cannotOpenDisplay])) ∧
    (∀ (env : MainEnv) (r : LoadResult), env.argc = 2 → env.XOpenDisplay = true →
      load_image co env.load 0 0 0 = some r → r.status ≠ EXIT_SUCCESS →
      r.status ≠ 0 ∧ main co env = some (Outcome.exited r.status (startup ++ r.trace))) ∧
    (∀ (env : MainEnv) (r : LoadResult), env.argc = 2 → env.XOpenDisplay = true →
      load_image co env.load 0 0 0 = some r → r.status = EXIT_SUCCESS →
      env.inotify_init1 = -1 →
      main co env =
        some (Outcome.exited EXIT_FAILURE
          (startup ++ r.trace ++ [Act.inotify_init1, Act.cerr Diag.inotifyInitFailed]))) ∧
    (∀ (env : MainEnv) (r : LoadResult), env.argc = 2 → env.XOpenDisplay = true →
      load_image co env.load 0 0 0 = some r → r.status = EXIT_SUCCESS →
      env.inotify_init1 ≠ -1 → env.inotify_add_watch = -1 →
      main co env =
        some (Outcome.exited EXIT_FAILURE
          (startup ++ r.trace ++
            [Act.inotify_init1, Act.inotify_add_watch, Act.cerr Diag.addWatchFailed]))) ∧
    (∀ (env : MainEnv) (pre : List IterEnv) (it : IterEnv) (rest : List IterEnv)
      (v : LoopVars) (done : List Act),
      env.iterations = pre ++ it :: rest →
      main co { env with iterations := pre } = some (Outcome.running v done) →
      (it.numRead = 0 →
        main co env =
          some (Outcome.exited EXIT_FAILURE (done ++ [Act.read, Act.cerr Diag.readNothing]))) ∧
      (it.numRead = -1 → ¬ (it.errno = EAGAIN ∨ it.errno = EWOULDBLOCK) →
        main co env =
          some (Outcome.exited EXIT_FAILURE (done ++ [Act.read, Act.cerr Diag.readError]))) ∧
      (∀ r : LoadResult, it.numRead ≠ 0 → it.numRead ≠ -1 →
        load_image co it.reload v.pixmap v.width v.height = some r →
        r.status ≠ EXIT_SUCCESS →
        r.status ≠ 0 ∧
        main co env = some (Outcome.exited r.status (done ++ ([Act.read] ++ r.trace))) ∧
        ([Act.read] ++ r.trace).filter isRedraw = [])) := by
  refine ⟨?_, by decide, ?_, ?_, ?_, ?_, ?_, ?_⟩
  · intro env tr h
    rcases main_cases co env with ⟨tr1, h1⟩ | h1 | ⟨r, -, hst, h1⟩ | ⟨r, h2, h3, h4, h5, h6, h7⟩
    · rw [h1] at h
      simp [EXIT_FAILURE] at h
    · rw [h1] at h
      simp at h
    · rw [h1] at h
      injection h with h
      injection h with hs _
      exact absurd hs hst
    · rw [main_started co env r h2 h3 h4 h5 h6 h7] at h
      exact loop_exit_zero co env.iterations _ _ tr h
  · intro env hargc
    simp [main, hargc]
  · intro env hargc hdpy
    simp [main, hargc, hdpy]
  · intro env r hargc hdpy hload hst
    exact ⟨hst, by simp [main, hargc, hdpy, hload, hst]⟩
  · intro env r hargc hdpy hload hst hinit
    simp [main, hargc, hdpy, hload, hst, hinit]
  · intro env r hargc hdpy hload hst hinit hwd
    simp [main, hargc, hdpy, hload, hst, hinit, hwd]
  · intro env pre it rest v done hits hrun
    have hmain : main co env = loop co v (it :: rest) done := by
      have h := main_extend co env pre (it :: rest) v done hrun
      rw [← hits] at h
      exact h
    rw [hmain, loop_cons]
    refine ⟨?_, ?_, ?_⟩
    · intro h0
      rw [iteration_read_nothing co v it h0]
      rfl
    · intro h1 he
      rw [iteration_read_error co v it h1 he]
      rfl
    · intro r h0 h1 hload hst
      refine ⟨hst, by rw [iteration_reload_failed co v it r h0 h1 hload hst]; rfl, ?_⟩
      rcases load_image_cases co it.reload v.pixmap v.width v.height r hload with
        ⟨-, -, -, hq⟩ | ⟨input, b, -, -, -, rfl⟩
      · simp [List.filter_append, (filter_eq_nil_of_quiet _ hq).1, isRedraw]
      · exact absurd rfl hst

/-- Witness for C10: `sampleMain` is still in its loop after the idle pass, the next
pass reloads an image of depth 16, and `main` returns the status 1 of `load_image`
right after its calls. -/
theorem main_exit_status_witness :
    main sampleOffsets { sampleMain with iterations := [idlePass] } =
      some (Outcome.running ⟨7, 2, 1⟩ sampleMainIdle) ∧
    load_image sampleOffsets badReloadPass.reload 7 2 1 = some sampleRejected ∧
    main sampleOffsets sampleMain =
      some (Outcome.exited 1 (sampleMainIdle ++ ([Act.read] ++ sampleRejected.trace))) := by
  have hrun : main sampleOffsets { sampleMain with iterations := [idlePass] } =
      some (Outcome.running ⟨7, 2, 1⟩ sampleMainIdle) := by decide
  have hload : load_image sampleOffsets badReloadPass.reload 7 2 1 = some sampleRejected := by
    decide
  exact ⟨hrun, hload,
    ((main_exit_status sampleOffsets).2.2.2.2.2.2.2 sampleMain [idlePass] badReloadPass []
      ⟨7, 2, 1⟩ sampleMainIdle rfl hrun).2.2 sampleRejected (by decide) (by decide) hload
      (by decide) |>.2.1⟩

end MonitorImage
